import Mathlib

/-!
# InternBooth: eligibility and department-matching rules

A shallow embedding of the rule code of the InternBooth front end:

* `src/pages/internships/InternshipDetails.jsx`: the taxonomy `DEPARTMENT_DOMAINS`,
  the department compatibility effect (lines 272-342) and `isEligible` (lines 344-375);
* `src/pages/Home.jsx`: the list filter `filteredInternships` and the `canApply` annotation;
* `src/components/InternshipCard.jsx`: `isExpired`;
* `src/utils/profileUtils.js`: `checkProfileCompletion`, `checkFacultyProfileCompletion`
  and `generateProfileNotificationMessage`.

The detail page holds two further copies of the department check, embedded as
`recommendationKeeps` (lines 118-183) and `targetDepartmentsDisplay` (lines 639-704).

Modelling conventions.

* A JavaScript string is a `List Char` (`Str`).  `toLowerCase` lowers the letters `A`-`Z`
  and leaves every other character alone; `trim` strips the ECMAScript white space and line
  terminator characters from both ends; `includes` is substring containment.
* A JavaScript number is an `Option ℚ`: `none` is `NaN`, `some q` the exact value of a
  finite double.  A decimal such as `8.2` stands for the double nearest to it,
  `roundToDouble 8.2`.  The product of two numbers is the exact product rounded to the
  nearest double, ties to even (`roundToDouble`), as IEEE 754 prescribes; the exponent is
  not bounded above, so that a product beyond the largest double is a very large value
  rather than `Infinity`, which compares in the same way with every finite number.
* A value read from a stored document is a `JSValue`.
* A `TypeError` thrown by the code is the result `none` of an `Option`-valued function.
-/

namespace InternBooth

/-! ## Strings -/

/-- A JavaScript string. -/
abbrev Str := List Char

/-- The characters removed by `String.prototype.trim`: ECMAScript `WhiteSpace` and
`LineTerminator`. -/
def isWhiteSpace (c : Char) : Bool :=
  let n := c.toNat
  n == 0x09 || n == 0x0A || n == 0x0B || n == 0x0C || n == 0x0D || n == 0x20 ||
  n == 0xA0 || n == 0x1680 || (0x2000 ≤ n && n ≤ 0x200A) || n == 0x2028 || n == 0x2029 ||
  n == 0x202F || n == 0x205F || n == 0x3000 || n == 0xFEFF

/-- The method `String.prototype.toLowerCase`, on the letters `A`-`Z`. -/
def toLowerCase (s : Str) : Str := s.map Char.toLower

/-- The method `String.prototype.trimStart`. -/
def trimStart (s : Str) : Str := s.dropWhile isWhiteSpace

/-- The method `String.prototype.trim`. -/
def trim (s : Str) : Str := (trimStart (trimStart s).reverse).reverse

/-- The call `s.includes(t)`: `t` occurs in `s` as a contiguous block. -/
def includes : Str → Str → Bool
  | [], t => t.isEmpty
  | c :: s, t => t.isPrefixOf (c :: s) || includes s t

/-! ## The taxonomy of `InternshipDetails.jsx` (lines 227-269) -/

/-- The key `'Artificial Intelligence'`. -/
def artificialIntelligence : Str := "Artificial Intelligence".toList

/-- The constant `DEPARTMENT_DOMAINS` of `InternshipDetails.jsx`, in declaration order. -/
def DEPARTMENT_DOMAINS : List (Str × List Str) :=
  [ ("Computer Science".toList,
      [ "Algorithms & Data Structures".toList, "Software Development".toList,
        "Database Systems".toList, "Operating Systems".toList, "Computer Networks".toList,
        "Cybersecurity".toList, "Cloud Computing".toList, "Data Science".toList,
        "Computer Graphics & AR/VR".toList, "Distributed Systems".toList,
        "Theory of Computation".toList ]),
    ("Information Technology".toList,
      [ "Web Development".toList, "Mobile App Development".toList,
        "Software Engineering".toList, "Information Security".toList,
        "Cloud & DevOps".toList, "Big Data Analytics".toList, "Database Management".toList,
        "IT Infrastructure & Networking".toList, "E-commerce & ERP Systems".toList,
        "Human-Computer Interaction".toList ]),
    ("Electrical Engineering".toList,
      [ "Power Systems".toList, "Electrical Machines".toList, "Control Systems".toList,
        "Power Electronics & Drives".toList, "Renewable Energy Systems".toList,
        "High Voltage Engineering".toList, "Smart Grid & Energy Management".toList,
        "Microgrids & Distributed Generation".toList,
        "Instrumentation & Measurement".toList, "Electromagnetics".toList ]),
    ("Electronics and Telecommunication".toList,
      [ "VLSI Design".toList, "Embedded Systems".toList,
        "Digital Signal Processing (DSP)".toList, "Control Systems".toList,
        "Communication Systems (Wireless, Optical, Satellite)".toList,
        "Antennas & Microwave Engineering".toList, "Internet of Things (IoT)".toList,
        "Robotics & Automation".toList, "Nanoelectronics".toList,
        "Power Electronics".toList ]),
    ("Mechanical Engineering".toList,
      [ "Design Engineering".toList, "Thermal Engineering".toList,
        "Manufacturing & Production".toList, "Mechatronics".toList,
        "CAD/CAM & Robotics".toList, "Fluid Mechanics & Hydraulics".toList,
        "Automotive Engineering".toList, "Aerospace Engineering".toList,
        "Energy Systems & Power Plants".toList, "Industrial Engineering".toList ]),
    ("Civil Engineering".toList,
      [ "Structural Engineering".toList, "Geotechnical Engineering".toList,
        "Transportation Engineering".toList, "Environmental Engineering".toList,
        "Construction Management".toList, "Water Resources Engineering".toList,
        "Surveying & Geoinformatics".toList, "Coastal & Offshore Engineering".toList,
        "Urban Planning & Smart Cities".toList, "Earthquake Engineering".toList ]),
    ("Artificial Intelligence".toList,
      [ "Machine Learning".toList, "Deep Learning".toList,
        "Natural Language Processing (NLP)".toList, "Computer Vision".toList,
        "Reinforcement Learning".toList, "Neural Networks".toList, "AI in Robotics".toList,
        "Explainable AI".toList, "AI in Healthcare / Finance / IoT".toList,
        "Data Mining & Knowledge Discovery".toList ]) ]

/-- The property read `DEPARTMENT_DOMAINS[userDepartment]`; `none` is a name that is not a
key of the table, for which the read gives no array. -/
def lookupDepartment (userDepartment : Str) : Option (List Str) :=
  (DEPARTMENT_DOMAINS.find? (fun e => e.1 == userDepartment)).map Prod.snd

/-- The departments of the taxonomy: the keys of `DEPARTMENT_DOMAINS`. -/
def taxonomyDepartments : List Str := DEPARTMENT_DOMAINS.map Prod.fst

/-! ## The domain matcher (`InternshipDetails.jsx`, lines 293-336) -/

/-- The expression `domain?.toLowerCase().trim() || ''`; `none` is a `null` or `undefined`
domain. -/
def normalizeDomain (domain : Option Str) : Str :=
  match domain with
  | none => []
  | some d => trim (toLowerCase d)

/-- The condition of the six `if` statements of lines 302-319, taken together: the
normalized domain triggers one of the AI-term rules. -/
def triggersAIRule (domainLower : Str) : Bool :=
  (includes domainLower "artificial intelligence".toList || domainLower == "ai".toList) ||
  (includes domainLower "machine learning".toList || domainLower == "ml".toList) ||
  includes domainLower "deep learning".toList ||
  includes domainLower "neural network".toList ||
  includes domainLower "computer vision".toList ||
  (includes domainLower "natural language processing".toList ||
    includes domainLower "nlp".toList)

/-- The callback of `departmentDomains.some` (lines 295-335), for one taxonomy entry
`deptDomain`. -/
def matchesDeptDomain (userDepartment domainLower deptDomain : Str) : Bool :=
  let deptDomainLower := trim (toLowerCase deptDomain)
  -- Exact match first
  if domainLower == deptDomainLower then true
  -- Specific AI/ML terms should only match AI department
  else if includes domainLower "artificial intelligence".toList ||
      domainLower == "ai".toList then
    userDepartment == artificialIntelligence
  else if includes domainLower "machine learning".toList || domainLower == "ml".toList then
    userDepartment == artificialIntelligence
  else if includes domainLower "deep learning".toList then
    userDepartment == artificialIntelligence
  else if includes domainLower "neural network".toList then
    userDepartment == artificialIntelligence
  else if includes domainLower "computer vision".toList then
    userDepartment == artificialIntelligence
  else if includes domainLower "natural language processing".toList ||
      includes domainLower "nlp".toList then
    userDepartment == artificialIntelligence
  -- For non-AI departments, exclude AI terms to avoid false matches
  else if userDepartment != artificialIntelligence &&
      (includes domainLower "artificial intelligence".toList || domainLower == "ai".toList ||
       includes domainLower "machine learning".toList || domainLower == "ml".toList ||
       includes domainLower "deep learning".toList ||
       includes domainLower "neural network".toList ||
       includes domainLower "computer vision".toList ||
       includes domainLower "natural language processing".toList ||
       includes domainLower "nlp".toList) then
    false
  -- General fuzzy matching for other cases
  else includes deptDomainLower domainLower || includes domainLower deptDomainLower

/-- The callback of `internshipDomains.some` (lines 293-336): one internship domain against
the entries `departmentDomains` of the student's department. -/
def domainMatches (userDepartment : Str) (departmentDomains : List Str)
    (domain : Option Str) : Bool :=
  departmentDomains.any (matchesDeptDomain userDepartment (normalizeDomain domain))

/-- The domain matcher on the taxonomy: `domain` against the department named
`userDepartment`; `none` when the name is not a key of `DEPARTMENT_DOMAINS`. -/
def matchesDepartment (domain : Option Str) (userDepartment : Str) : Option Bool :=
  (lookupDepartment userDepartment).map (fun ds => domainMatches userDepartment ds domain)

/-! ## Stored values and numbers -/

/-- A JavaScript number: `none` is `NaN`, `some q` a finite value. -/
abbrev JSNumber := Option ℚ

/-- A value read from a stored document. -/
inductive JSValue where
  /-- The property is absent. -/
  | undefined
  /-- The value `null`. -/
  | null
  /-- A number, `NaN` included. -/
  | number (x : JSNumber)
  /-- A string. -/
  | string (s : Str)
  deriving DecidableEq

/-- The conversion to boolean of a condition: `undefined`, `null`, `NaN`, `0` and `''` are
falsy. -/
def truthy : JSValue → Bool
  | .undefined => false
  | .null => false
  | .number none => false
  | .number (some q) => q != 0
  | .string s => !s.isEmpty

/-- The call `Number(v)`.  The conversion of a string is the parameter `stringToNumber`
(the `StringToNumber` operation of the language, `none` for a text that is not a numeral). -/
def toNumber (stringToNumber : Str → JSNumber) : JSValue → JSNumber
  | .undefined => none
  | .null => some 0
  | .number x => x
  | .string s => stringToNumber s

/-- The comparison `a < b` of two numbers: false as soon as one is `NaN`. -/
def numLt : JSNumber → JSNumber → Bool
  | some a, some b => decide (a < b)
  | _, _ => false

/-- The number of binary digits of `n`, found by halving `n` at most `fuel` times. -/
def bitLengthAux : Nat → Nat → Nat
  | 0, _ => 0
  | fuel + 1, n => if n = 0 then 0 else bitLengthAux fuel (n / 2) + 1

/-- The number of binary digits of `n`. -/
def bitLength (n : Nat) : Nat := bitLengthAux n n

/-- The integer nearest to `n / d`, the even one of the two when `n / d` is half way. -/
def roundHalfEven (n d : Nat) : Nat :=
  let q := n / d
  let r := n % d
  if 2 * r < d then q
  else if d < 2 * r then q + 1
  else if q % 2 == 0 then q
  else q + 1

/-- The exponent `e` with `2 ^ e ≤ n / d < 2 ^ (e + 1)`, for positive `n` and `d`. -/
def floorLog2 (n d : Nat) : Int :=
  let k : Int := (bitLength n : Int) - (bitLength d : Int)
  if 0 ≤ k then (if d * 2 ^ k.toNat ≤ n then k else k - 1)
  else (if d ≤ n * 2 ^ (-k).toNat then k else k - 1)

/-- The double nearest to the real `x`, ties to even: 53 binary digits, the unit in the
last place no smaller than `2 ^ (-1074)`. -/
def roundToDouble (x : ℚ) : ℚ :=
  if x = 0 then 0
  else
    let n := x.num.natAbs
    let d := x.den
    let e := max (floorLog2 n d - 52) (-1074)
    let r : ℚ :=
      if 0 ≤ e then ((roundHalfEven n (d * 2 ^ e.toNat) * 2 ^ e.toNat : Nat) : ℚ)
      else (roundHalfEven (n * 2 ^ (-e).toNat) d : ℚ) / ((2 ^ (-e).toNat : Nat) : ℚ)
    if x < 0 then -r else r

/-- The product `a * b` of two numbers: the exact product, rounded to a double. -/
def numMul : JSNumber → JSNumber → JSNumber
  | some a, some b => some (roundToDouble (a * b))
  | _, _ => none

/-- The call `Number.isNaN(x)`. -/
def isNaN (x : JSNumber) : Bool := x.isNone

/-! ## Records -/

/-- The object `internship.eligibilityCriteria`.  `allowedYears` is `none` when the stored
value is not an array. -/
structure EligibilityCriteria where
  type : JSValue
  minCgpa : JSValue
  minPercentage : JSValue
  allowedYears : Option (List JSValue)
  deriving DecidableEq

/-- The empty object `{}` that stands in for absent criteria. -/
def emptyCriteria : EligibilityCriteria :=
  { type := .undefined, minCgpa := .undefined, minPercentage := .undefined,
    allowedYears := none }

/-- The property `firstRoundDate` of an internship, as the code reads it. -/
inductive DateField where
  /-- The property is absent. -/
  | undefined
  /-- Another falsy value (`null`, `''`). -/
  | falsy
  /-- A truthy value; `new Date(value)` has time value `t`, `none` for an invalid date. -/
  | date (t : Option Int)
  deriving DecidableEq

/-- An internship document.  `none` is an absent (or `null`) property; a domain `none` is a
`null` element of the array. -/
structure Internship where
  id : Str
  title : Option Str
  companyName : Option Str
  domains : Option (List (Option Str))
  departments : Option (List Str)
  firstRoundDate : DateField
  eligibilityCriteria : Option EligibilityCriteria
  deriving DecidableEq

/-- The profile document `userData` of the viewer. -/
structure UserData where
  department : Option Str
  cgpa : JSValue
  tenthPercentage : JSValue
  twelfthPercentage : JSValue
  currentYear : JSValue

/-! ## The department compatibility effect (`InternshipDetails.jsx`, lines 272-342) -/

/-- The test `internship.departments && internship.departments.length > 0`. -/
def hasDepartments (internship : Internship) : Bool :=
  match internship.departments with
  | none => false
  | some ds => decide (ds.length > 0)

/-- The call `internship.departments.includes(userDepartment)`, after `hasDepartments`. -/
def departmentsInclude (internship : Internship) (userDepartment : Str) : Bool :=
  match internship.departments with
  | none => false
  | some ds => ds.contains userDepartment

/-- The value the effect passes to `setDepartmentMismatch`; `none` when the effect throws a
`TypeError` (the student's department is not a key of `DEPARTMENT_DOMAINS`, so that
`departmentDomains.some` is a call on `undefined`). -/
def departmentMismatch (internship : Option Internship) (userData : Option UserData) :
    Option Bool :=
  match internship, userData with
  | some internship, some userData =>
    match userData.department with
    | none => some false
    | some userDepartment =>
      if userDepartment.isEmpty then some false
      -- Use the departments field if available (primary method)
      else if hasDepartments internship then
        some (!departmentsInclude internship userDepartment)
      else
        -- Fallback to domain-based matching for older internships
        let internshipDomains := internship.domains.getD []
        -- If no domains specified in internship, allow all departments
        if internshipDomains.length == 0 then some false
        else
          match lookupDepartment userDepartment with
          | none => none
          | some departmentDomains =>
            some (!internshipDomains.any (domainMatches userDepartment departmentDomains))
  | _, _ => some false

/-! ## The eligibility evaluator (`InternshipDetails.jsx`, lines 344-375) -/

/-- The expression `crit.type || 'cgpa'`. -/
def criteriaType (crit : EligibilityCriteria) : JSValue :=
  if truthy crit.type then crit.type else .string "cgpa".toList

/-- The expression `typeof v === 'number' ? v : null`; the outer `none` is `null`. -/
def numberOrNull : JSValue → Option JSNumber
  | .number x => some x
  | _ => none

/-- The condition of line 359: the criteria list allowed years, the student's year is set
and it is not one of them. -/
def yearExcluded (crit : EligibilityCriteria) (userData : UserData) : Bool :=
  let allowedYears := crit.allowedYears.getD []
  let userYear := userData.currentYear
  decide (allowedYears.length > 0) && truthy userYear && !allowedYears.contains userYear

/-- The constant `isEligible` of the detail view.  `userRole` is `none` while no role is
loaded. -/
def isEligible (stringToNumber : Str → JSNumber) (internship : Option Internship)
    (userData : Option UserData) (userRole : Option Str) : Bool :=
  match internship with
  | none => true
  | some internship =>
    let crit := internship.eligibilityCriteria.getD emptyCriteria
    let type := criteriaType crit
    let minCgpa := numberOrNull crit.minCgpa
    let minPercentage := numberOrNull crit.minPercentage
    match userData with
    | none => true
    | some userData =>
      if userRole != some "student".toList then true
      else
        let userCgpa := toNumber stringToNumber userData.cgpa
        let tenth := toNumber stringToNumber userData.tenthPercentage
        let twelfth := toNumber stringToNumber userData.twelfthPercentage
        if yearExcluded crit userData then false
        else if type == .string "percentage".toList then
          match minPercentage with
          | none => true
          | some minPercentage =>
            if isNaN tenth || isNaN twelfth || isNaN userCgpa then false
            else
              let cgpaPercent := numMul userCgpa (some 9.5)
              if numLt tenth minPercentage then false
              else if numLt twelfth minPercentage then false
              else if numLt cgpaPercent minPercentage then false
              else true
        else
          match minCgpa with
          | none => true
          | some minCgpa =>
            if !isNaN userCgpa && numLt userCgpa minCgpa then false else true

/-! ## The list filter and its annotations (`Home.jsx`, `InternshipCard.jsx`) -/

/-- The state of the `Home` component that the filter reads. -/
structure HomeState where
  userInterests : List (Option Str)
  userDepartment : Str
  filterByDepartment : Bool
  showAllInternships : Bool
  showExpiredInternships : Bool
  searchTerm : Str
  appliedInternshipIds : List Str

/-- The comparison `deadline < now` of two `Date` objects, by time value. -/
def dateLt (deadline : Option Int) (now : Int) : Bool :=
  match deadline with
  | none => false
  | some t => decide (t < now)

/-- The guard of lines 218-224 of `Home.jsx`: the internship has a deadline and it is
before `now`. -/
def deadlinePassed (now : Int) (internship : Internship) : Bool :=
  match internship.firstRoundDate with
  | .date t => dateLt t now
  | _ => false

/-- The constant `matchesSearch` of the filter callback, as a condition. -/
def matchesSearch (searchTerm : Str) (internship : Internship) : Bool :=
  searchTerm.isEmpty ||
  (match internship.title with
    | none => false
    | some t => includes (toLowerCase t) (toLowerCase searchTerm)) ||
  (match internship.companyName with
    | none => false
    | some c => includes (toLowerCase c) (toLowerCase searchTerm)) ||
  (match internship.domains with
    | none => false
    | some ds => ds.any (fun domain =>
        match domain with
        | none => false
        | some d => includes (toLowerCase d) (toLowerCase searchTerm)))

/-- The callback of `internships.filter` in `Home.jsx`; `now` is the reading of the clock. -/
def keepInternship (now : Int) (st : HomeState) (internship : Internship) : Bool :=
  -- Hide internships the student has already applied to
  if !st.showAllInternships && st.appliedInternshipIds.contains internship.id then false
  -- Hide internships where application deadline has passed (unless showing expired)
  else if !st.showExpiredInternships && deadlinePassed now internship then false
  -- If showing all internships, only apply search filter
  else if st.showAllInternships then matchesSearch st.searchTerm internship
  else
    -- Department-based filtering ONLY
    let matchesDepartment :=
      if st.filterByDepartment && !st.userDepartment.isEmpty then
        if hasDepartments internship then departmentsInclude internship st.userDepartment
        else false
      else true
    matchesSearch st.searchTerm internship && matchesDepartment

/-- The constant `filteredInternships` of `Home.jsx`. -/
def filteredInternships (now : Int) (st : HomeState) (internships : List Internship) :
    List Internship :=
  internships.filter (keepInternship now st)

/-- The constant `canApply` computed for each card of the list (`Home.jsx`, lines 390-400). -/
def canApply (st : HomeState) (internship : Internship) : Bool :=
  !st.showAllInternships ||
    (if st.userDepartment.isEmpty then true
     -- Use the departments field exclusively
     else if hasDepartments internship then departmentsInclude internship st.userDepartment
     -- If no departments field, don't allow application
     else false)

/-- The constant `isExpired` of `InternshipCard.jsx`.  An absent `firstRoundDate` is
replaced by the default `new Date()`, read at `t0`; the comparison reads the clock at `t1`. -/
def isExpired (t0 t1 : Int) (internship : Internship) : Bool :=
  match internship.firstRoundDate with
  | .undefined => dateLt (some t0) t1
  | .falsy => false
  | .date t => dateLt t t1

/-! ## Profile completeness (`utils/profileUtils.js`) -/

/-- A user document, as the property read `userData[key]`: `undefined` for an absent key. -/
abbrev Profile := Str → JSValue

/-- The object `{ isComplete, missingFields }` returned by the completion checks. -/
structure Completion where
  isComplete : Bool
  missingFields : List Str
  deriving DecidableEq

/-- The array `requiredFields` of `checkProfileCompletion` (lines 21-38): key and label. -/
def studentRequiredFields : List (Str × Str) :=
  [ ("firstName".toList, "First Name".toList),
    ("lastName".toList, "Last Name".toList),
    ("email".toList, "Email".toList),
    ("phoneNumber".toList, "Phone Number".toList),
    ("department".toList, "Department".toList),
    ("currentYear".toList, "Current Year".toList),
    ("tenthPercentage".toList, "10th Percentage".toList),
    ("twelfthPercentage".toList, "12th Percentage".toList),
    ("cgpa".toList, "CGPA".toList),
    ("passingYear".toList, "Passing Year".toList),
    ("previousProjects".toList, "Previous Projects".toList),
    ("githubLink".toList, "GitHub Profile Link".toList),
    ("linkedinLink".toList, "LinkedIn Profile Link".toList),
    ("cocubesScore".toList, "CoCubes Score".toList),
    ("leetcodeLink".toList, "LeetCode Profile Link".toList),
    ("codechefLink".toList, "CodeChef Profile Link".toList) ]

/-- The test `!value || (typeof value === 'string' && value.trim() === '')` of line 45. -/
def isMissingValue (value : JSValue) : Bool :=
  !truthy value ||
    (match value with
      | .string s => trim s == []
      | _ => false)

/-- Missing, in the words of the specification: the value is absent (`undefined` or
`null`) or is a string of white space only. The test the code runs is `isMissingValue`. -/
def missingPerSpec : JSValue → Bool
  | .undefined => true
  | .null => true
  | .number _ => false
  | .string s => s.all isWhiteSpace

/-- The loop `requiredFields.forEach(...)` of lines 42-49: the labels pushed, in order. -/
def collectMissing (requiredFields : List (Str × Str)) (userData : Profile) : List Str :=
  requiredFields.foldl
    (fun missingFields f =>
      if isMissingValue (userData f.1) then missingFields ++ [f.2] else missingFields)
    []

/-- The test `/^[0-9]{10}$/.test(value)` of line 52. The value is converted to a string
first: a number prints as ten digits exactly when it is an integer from 1000000000 to
9999999999. -/
def isTenDigits : JSValue → Bool
  | .string s => s.length == 10 && s.all (fun c => decide ('0' ≤ c) && decide (c ≤ '9'))
  | .number (some q) => q.den == 1 && decide (1000000000 ≤ q.num) && decide (q.num ≤ 9999999999)
  | _ => false

/-- The label pushed by the phone format check. -/
def validPhoneLabel : Str := "Valid Phone Number (10 digits)".toList

/-- The function `checkProfileCompletion`; `none` is a `null` or `undefined` argument. -/
def checkProfileCompletion (userData : Option Profile) : Completion :=
  match userData with
  | none => { isComplete := false, missingFields := ["All profile information".toList] }
  | some userData =>
    let missingFields := collectMissing studentRequiredFields userData
    -- Check for phone number format (only if phone number field is not empty)
    let missingFields :=
      if truthy (userData "phoneNumber".toList) &&
          !isTenDigits (userData "phoneNumber".toList) then
        if !missingFields.contains "Phone Number".toList then
          missingFields ++ [validPhoneLabel]
        else missingFields
      else missingFields
    { isComplete := missingFields.length == 0, missingFields := missingFields }

/-- The array `requiredFields` of `checkFacultyProfileCompletion` (lines 83-92). -/
def facultyRequiredFields : List (Str × Str) :=
  [ ("firstName".toList, "First Name".toList),
    ("lastName".toList, "Last Name".toList),
    ("department".toList, "Department".toList),
    ("designation".toList, "Designation".toList),
    ("specialization".toList, "Specialization".toList),
    ("experience".toList, "Years of Experience".toList),
    ("qualifications".toList, "Qualifications".toList),
    ("contactEmail".toList, "Contact Email".toList) ]

/-- The function `checkFacultyProfileCompletion`; `none` is a `null` or `undefined`
argument. -/
def checkFacultyProfileCompletion (userData : Option Profile) : Completion :=
  match userData with
  | none => { isComplete := false, missingFields := ["All profile information".toList] }
  | some userData =>
    let missingFields := collectMissing facultyRequiredFields userData
    { isComplete := missingFields.length == 0, missingFields := missingFields }

/-- The call `missingFields.join(', ')`. -/
def joinLabels (missingFields : List Str) : Str :=
  ", ".toList.intercalate missingFields

/-- The constant `baseMessage` of `generateProfileNotificationMessage`. -/
def baseMessage : Str :=
  ("Your profile is not complete. Please complete it to find better opportunities " ++
    "and connect with other people.").toList

/-- The message returned for the role `faculty`. -/
def facultyMessage : Str := "Your profile is incomplete. Please complete it.".toList

/-- The function `generateProfileNotificationMessage`. `userRole` is `none` when the
argument is left out, which stands for `'student'`; the result `none` is `null`. -/
def generateProfileNotificationMessage (missingFields : List Str) (userRole : Option Str) :
    Option Str :=
  let userRole := userRole.getD "student".toList
  if missingFields.length == 0 then none
  else if userRole == "faculty".toList then some facultyMessage
  else if missingFields.length ≤ 3 then
    some (baseMessage ++ " Missing: ".toList ++ joinLabels missingFields ++ ".".toList)
  else
    some (baseMessage ++ " You have ".toList ++ (Nat.repr missingFields.length).toList ++
      " fields to complete.".toList)

/-! ## The interest badge of the list (`Home.jsx`, lines 402-415) -/

/-- The constant `hasMatchingDomains` computed for each card of the list. -/
def hasMatchingDomains (st : HomeState) (internship : Internship) : Bool :=
  match internship.domains with
  | none => false
  | some domains =>
    if st.userInterests.length == 0 || domains.length == 0 then false
    else
      st.userInterests.any (fun interest =>
        let userInterest := normalizeDomain interest
        domains.any (fun domain =>
          let internshipDomain := normalizeDomain domain
          includes internshipDomain userInterest || includes userInterest internshipDomain))

/-! ## The recommendation filter (`InternshipDetails.jsx`, lines 118-183) -/

/-- The callback of the department stage of `fetchOtherInternships`, for a student of the
department `userDepartment`. -/
def recommendationKeeps (userDepartment : Str) (internship : Internship) : Bool :=
  -- Use the departments field if available (primary method)
  if hasDepartments internship then departmentsInclude internship userDepartment
  else
    -- Fallback to domain-based matching for older internships
    let internshipDomains := internship.domains.getD []
    -- If no domains specified, don't show in department-specific recommendations
    if internshipDomains.length == 0 then false
    else
      match lookupDepartment userDepartment with
      | none => false
      | some departmentDomains =>
        internshipDomains.any (domainMatches userDepartment departmentDomains)

/-- The department stage of `fetchOtherInternships`: the filter runs only when a profile
with a department is loaded. -/
def recommendedForDepartment (userData : Option UserData) (internships : List Internship) :
    List Internship :=
  match userData with
  | none => internships
  | some userData =>
    match userData.department with
    | none => internships
    | some userDepartment =>
      if userDepartment.isEmpty then internships
      else internships.filter (recommendationKeeps userDepartment)

/-! ## The target departments shown on the detail page (`InternshipDetails.jsx`, 639-704) -/

/-- What the "Target Departments" box shows. -/
inductive TargetDisplay where
  /-- The text "Open to all departments". -/
  | openToAll
  /-- One badge for each department of the list. -/
  | departments (depts : List Str)
  deriving DecidableEq

/-- The call `targetDepts.add(dept)` on a `Set`, kept in insertion order. -/
def setAdd (targetDepts : List Str) (dept : Str) : List Str :=
  if targetDepts.contains dept then targetDepts else targetDepts ++ [dept]

/-- The callback of `domains.some` in the detection (lines 685-690). -/
def displayHasMatch (domainLower : Str) (domains : List Str) : Bool :=
  domains.any (fun d =>
    let deptDomainLower := trim (toLowerCase d)
    domainLower == deptDomainLower || includes deptDomainLower domainLower ||
      includes domainLower deptDomainLower)

/-- The body of `safeDomains.forEach` (lines 658-697) for one domain string. -/
def detectDomain (targetDepts : List Str) (domain : Str) : List Str :=
  let domainLower := trim (toLowerCase domain)
  -- Direct mapping for specific domains
  if includes domainLower "machine learning".toList || domainLower == "ml".toList then
    setAdd targetDepts artificialIntelligence
  else if includes domainLower "artificial intelligence".toList ||
      domainLower == "ai".toList then
    setAdd targetDepts artificialIntelligence
  else if includes domainLower "deep learning".toList then
    setAdd targetDepts artificialIntelligence
  else if includes domainLower "neural network".toList then
    setAdd targetDepts artificialIntelligence
  else if includes domainLower "computer vision".toList then
    setAdd targetDepts artificialIntelligence
  else if includes domainLower "natural language processing".toList ||
      includes domainLower "nlp".toList then
    setAdd targetDepts artificialIntelligence
  else
    -- For non-AI domains, check all other departments
    DEPARTMENT_DOMAINS.foldl
      (fun targetDepts e =>
        if e.1 == artificialIntelligence then targetDepts
        else if displayHasMatch domainLower e.2 then setAdd targetDepts e.1
        else targetDepts)
      targetDepts

/-- The loop `safeDomains.forEach(...)`; `none` when a domain is `null`, on which
`domain.toLowerCase()` throws a `TypeError`. -/
def detectDomains : List Str → List (Option Str) → Option (List Str)
  | targetDepts, [] => some targetDepts
  | _, none :: _ => none
  | targetDepts, some domain :: rest => detectDomains (detectDomain targetDepts domain) rest

/-- The content of the "Target Departments" box of the detail page. -/
def targetDepartmentsDisplay (internship : Internship) : Option TargetDisplay :=
  let safeDomains := internship.domains.getD []
  if safeDomains.length > 0 then
    -- Use the departments field from internship data if available
    let targetDepartments := internship.departments.getD []
    if targetDepartments.length > 0 then some (.departments targetDepartments)
    -- Fallback to domain-based detection if no departments field
    else (detectDomains [] safeDomains).map .departments
  else some .openToAll

/-- What the detection step for `domain` adds: the department `x` is Artificial
Intelligence and the domain triggers an AI-term rule, or the domain triggers none and `x`
is another department of the taxonomy with an entry that contains it or is contained in
it. -/
def detects (domain x : Str) : Prop :=
  (triggersAIRule (trim (toLowerCase domain)) = true ∧ x = artificialIntelligence) ∨
  (triggersAIRule (trim (toLowerCase domain)) = false ∧
    ∃ e ∈ DEPARTMENT_DOMAINS, e.1 = x ∧ x ≠ artificialIntelligence ∧
      displayHasMatch (trim (toLowerCase domain)) e.2 = true)

/-! ## Sample records, used to evaluate the code at concrete inputs -/

/-- The internship of the witness of C1: it targets Civil Engineering only, with a domain
of the Computer Science entry of the taxonomy. -/
def civilOnlyInternship : Internship :=
  { id := "i1".toList, title := some "Site analytics".toList, companyName := none,
    domains := some [some "Data Science".toList],
    departments := some ["Civil Engineering".toList],
    firstRoundDate := .undefined, eligibilityCriteria := none }

/-- A Computer Science student with no scores recorded. -/
def csStudent : UserData :=
  { department := some "Computer Science".toList, cgpa := .undefined,
    tenthPercentage := .undefined, twelfthPercentage := .undefined,
    currentYear := .undefined }

/-- The state of the counterexample of C2: a Computer Science student browsing all
internships, expired ones included. -/
def browseAllState : HomeState :=
  { userInterests := [], userDepartment := "Computer Science".toList,
    filterByDepartment := true, showAllInternships := true, showExpiredInternships := true,
    searchTerm := [], appliedInternshipIds := [] }

/-- The internship of the counterexample of C2: it targets Computer Science, its deadline
(time 5) is past at time 10, and it asks for a CGPA of 9. -/
def expiredStrictInternship : Internship :=
  { id := "i2".toList, title := some "Compiler work".toList, companyName := none,
    domains := some [], departments := some ["Computer Science".toList],
    firstRoundDate := .date (some 5),
    eligibilityCriteria := some { type := .string "cgpa".toList, minCgpa := .number (some 9),
                                  minPercentage := .undefined, allowedYears := none } }

/-- A Computer Science student with a CGPA of 6. -/
def lowCgpaStudent : UserData :=
  { department := some "Computer Science".toList, cgpa := .number (some 6),
    tenthPercentage := .number (some 70), twelfthPercentage := .number (some 70),
    currentYear := .undefined }

/-- The role string `'student'`. -/
def studentRole : Option Str := some "student".toList

/-- Criteria of type `percentage` with a minimum of 80. -/
def percentage80 : EligibilityCriteria :=
  { type := .string "percentage".toList, minCgpa := .undefined,
    minPercentage := .number (some 80), allowedYears := none }

/-- Criteria of type `cgpa` with a minimum CGPA of 8. -/
def cgpa8 : EligibilityCriteria :=
  { type := .string "cgpa".toList, minCgpa := .number (some 8),
    minPercentage := .undefined, allowedYears := none }

/-- An internship that carries the criteria `crit` and nothing else of interest. -/
def internshipWith (crit : EligibilityCriteria) : Internship :=
  { id := "i3".toList, title := none, companyName := none, domains := none,
    departments := none, firstRoundDate := .undefined, eligibilityCriteria := some crit }

/-- A student with CGPA 8.0, tenth percentage 75 and twelfth percentage 90. -/
def student_8_75_90 : UserData :=
  { department := some "Computer Science".toList, cgpa := .number (some 8),
    tenthPercentage := .number (some 75), twelfthPercentage := .number (some 90),
    currentYear := .undefined }

/-- A student whose CGPA is absent from the record. -/
def studentNoCgpa : UserData :=
  { department := some "Computer Science".toList, cgpa := .undefined,
    tenthPercentage := .number (some 90), twelfthPercentage := .number (some 90),
    currentYear := .undefined }

/-- A student whose CGPA is stored as the text "N/A". -/
def studentTextCgpa : UserData :=
  { studentNoCgpa with cgpa := .string "N/A".toList }

/-- The document whose properties are the pairs of `fields`. -/
def profileOf (fields : List (Str × JSValue)) : Profile :=
  fun key => ((fields.find? (fun f => f.1 == key)).map Prod.snd).getD .undefined

/-- A student document with every required field filled except `cgpa` and `githubLink`. -/
def profileWithoutCgpaGithub : Profile :=
  profileOf
    [ ("firstName".toList, .string "Asha".toList),
      ("lastName".toList, .string "Rao".toList),
      ("email".toList, .string "asha@example.org".toList),
      ("phoneNumber".toList, .string "9876543210".toList),
      ("department".toList, .string "Computer Science".toList),
      ("currentYear".toList, .string "3".toList),
      ("tenthPercentage".toList, .string "88".toList),
      ("twelfthPercentage".toList, .string "91".toList),
      ("passingYear".toList, .string "2026".toList),
      ("previousProjects".toList, .string "Compiler".toList),
      ("linkedinLink".toList, .string "https://linkedin.example/asha".toList),
      ("cocubesScore".toList, .string "640".toList),
      ("leetcodeLink".toList, .string "https://leetcode.example/asha".toList),
      ("codechefLink".toList, .string "https://codechef.example/asha".toList) ]

/-- Criteria open to years 3 and 4 only, with no threshold. -/
def years34 : EligibilityCriteria :=
  { type := .undefined, minCgpa := .undefined, minPercentage := .undefined,
    allowedYears := some [.string "3".toList, .string "4".toList] }

/-- A second-year student with top scores. -/
def secondYearStudent : UserData :=
  { department := some "Computer Science".toList, cgpa := .number (some 10),
    tenthPercentage := .number (some 100), twelfthPercentage := .number (some 100),
    currentYear := .string "2".toList }

/-- Criteria of type `percentage` asking for 100 percent, for final-year students only. -/
def strictCriteria : EligibilityCriteria :=
  { type := .string "percentage".toList, minCgpa := .number (some 10),
    minPercentage := .number (some 100), allowedYears := some [.string "4".toList] }

/-- The role string `'faculty'`. -/
def facultyRole : Option Str := some "faculty".toList

/-- A viewer with no department (not logged in), in the default department-scoped view. -/
def anonymousState : HomeState :=
  { userInterests := [], userDepartment := [], filterByDepartment := true,
    showAllInternships := false, showExpiredInternships := false, searchTerm := [],
    appliedInternshipIds := [] }

/-- A Computer Science student in the default department-scoped view. -/
def scopedState : HomeState :=
  { userInterests := [], userDepartment := "Computer Science".toList,
    filterByDepartment := true, showAllInternships := false,
    showExpiredInternships := false, searchTerm := [], appliedInternshipIds := [] }

/-- An internship for Computer Science whose deadline is the instant 10. -/
def deadlineAtTen : Internship :=
  { id := "i4".toList, title := some "Database tuning".toList,
    companyName := some "Acme Labs".toList, domains := some [some "Database Systems".toList],
    departments := some ["Computer Science".toList], firstRoundDate := .date (some 10),
    eligibilityCriteria := none }

/-- An older internship, stored without a `departments` field. -/
def noDepartmentsInternship : Internship :=
  { id := "i5".toList, title := some "Bridge survey".toList, companyName := none,
    domains := some [some "Structural Engineering".toList], departments := none,
    firstRoundDate := .undefined, eligibilityCriteria := none }

/-- A student of a department that is not a key of the taxonomy. -/
def chemicalStudent : UserData :=
  { department := some "Chemical Engineering".toList, cgpa := .undefined,
    tenthPercentage := .undefined, twelfthPercentage := .undefined,
    currentYear := .undefined }

/-- The state `scopedState` after the student applied to the internship `i4`. -/
def appliedState : HomeState :=
  { scopedState with appliedInternshipIds := ["i4".toList] }

/-- A Civil Engineering student browsing all internships, expired ones included, with the
search term "ACME". -/
def searchAcmeState : HomeState :=
  { userInterests := [], userDepartment := "Civil Engineering".toList,
    filterByDepartment := true, showAllInternships := true, showExpiredInternships := true,
    searchTerm := "ACME".toList, appliedInternshipIds := [] }

/-- The same view with the search term "zebra". -/
def searchZebraState : HomeState :=
  { searchAcmeState with searchTerm := "zebra".toList }

/-- A faculty document with every required field filled; the years of experience are the
number 0. -/
def facultyZeroExperience : Profile :=
  profileOf
    [ ("firstName".toList, .string "Meera".toList),
      ("lastName".toList, .string "Iyer".toList),
      ("department".toList, .string "Civil Engineering".toList),
      ("designation".toList, .string "Assistant Professor".toList),
      ("specialization".toList, .string "Hydrology".toList),
      ("experience".toList, .number (some 0)),
      ("qualifications".toList, .string "PhD".toList),
      ("contactEmail".toList, .string "meera@example.org".toList) ]

/-- A student document with every required field filled and a phone number of nine
digits. -/
def profileShortPhone : Profile :=
  profileOf
    [ ("firstName".toList, .string "Asha".toList),
      ("lastName".toList, .string "Rao".toList),
      ("email".toList, .string "asha@example.org".toList),
      ("phoneNumber".toList, .string "987654321".toList),
      ("department".toList, .string "Computer Science".toList),
      ("currentYear".toList, .string "3".toList),
      ("tenthPercentage".toList, .string "88".toList),
      ("twelfthPercentage".toList, .string "91".toList),
      ("cgpa".toList, .string "8.4".toList),
      ("passingYear".toList, .string "2026".toList),
      ("previousProjects".toList, .string "Compiler".toList),
      ("githubLink".toList, .string "https://github.example/asha".toList),
      ("linkedinLink".toList, .string "https://linkedin.example/asha".toList),
      ("cocubesScore".toList, .string "640".toList),
      ("leetcodeLink".toList, .string "https://leetcode.example/asha".toList),
      ("codechefLink".toList, .string "https://codechef.example/asha".toList) ]

/-- A Computer Science student in the scoped view, interested in "databases". -/
def interestedState : HomeState :=
  { scopedState with userInterests := [some "  Database ".toList] }

/-- A Civil Engineering student with no scores recorded. -/
def civilStudent : UserData :=
  { csStudent with department := some "Civil Engineering".toList }

/-- A student of Artificial Intelligence with no scores recorded. -/
def aiStudent : UserData :=
  { csStudent with department := some artificialIntelligence }

/-- An older internship on reinforcement learning, stored without `departments`. -/
def reinforcementInternship : Internship :=
  { noDepartmentsInternship with domains := some [some "Reinforcement Learning".toList] }

/-- Criteria of type `percentage` whose minimum is the double nearest to `decimal`. -/
def percentageAtLeast (decimal : ℚ) : EligibilityCriteria :=
  { type := .string "percentage".toList, minCgpa := .undefined,
    minPercentage := .number (some (roundToDouble decimal)), allowedYears := none }

/-- A student with 90 percent in both examinations and the double nearest to `decimal` as
CGPA. -/
def studentWithCgpa (decimal : ℚ) : UserData :=
  { department := some "Computer Science".toList,
    cgpa := .number (some (roundToDouble decimal)),
    tenthPercentage := .number (some 90), twelfthPercentage := .number (some 90),
    currentYear := .undefined }

/-- A student document with every required field filled; the CoCubes score is the
number 0. -/
def profileZeroCocubes : Profile :=
  profileOf
    [ ("firstName".toList, .string "Asha".toList),
      ("lastName".toList, .string "Rao".toList),
      ("email".toList, .string "asha@example.org".toList),
      ("phoneNumber".toList, .string "9876543210".toList),
      ("department".toList, .string "Computer Science".toList),
      ("currentYear".toList, .string "3".toList),
      ("tenthPercentage".toList, .string "88".toList),
      ("twelfthPercentage".toList, .string "91".toList),
      ("cgpa".toList, .string "8.4".toList),
      ("passingYear".toList, .string "2026".toList),
      ("previousProjects".toList, .string "Compiler".toList),
      ("githubLink".toList, .string "https://github.example/asha".toList),
      ("linkedinLink".toList, .string "https://linkedin.example/asha".toList),
      ("cocubesScore".toList, .number (some 0)),
      ("leetcodeLink".toList, .string "https://leetcode.example/asha".toList),
      ("codechefLink".toList, .string "https://codechef.example/asha".toList) ]

/-! ## Lemmas on strings and on the taxonomy -/

/-- The call `s.includes(t)` holds exactly when `t` is an infix of `s`. -/
theorem includes_iff (s t : Str) : includes s t = true ↔ t <:+: s := by
  induction s with
  | nil => simp [includes, List.isEmpty_iff]
  | cons c s ih =>
    simp only [includes, Bool.or_eq_true, ih, List.isPrefixOf_iff_prefix]
    exact (List.infix_cons_iff).symm

/-- Every string includes itself. -/
theorem includes_self (s : Str) : includes s s = true :=
  (includes_iff s s).2 (List.infix_refl s)

/-- On a domain that triggers an AI-term rule the callback answers by exact equality or
by the department being Artificial Intelligence. -/
theorem matchesDeptDomain_of_trigger (u d e : Str) (h : triggersAIRule d = true) :
    matchesDeptDomain u d e = (d == trim (toLowerCase e) || u == artificialIntelligence) := by
  simp only [matchesDeptDomain]
  simp only [triggersAIRule, Bool.or_eq_true] at h
  split_ifs <;> simp_all

/-- On a domain that triggers no AI-term rule the callback answers by containment in one
of the two directions. -/
theorem matchesDeptDomain_of_no_trigger (u d e : Str) (h : triggersAIRule d = false) :
    matchesDeptDomain u d e =
      (includes (trim (toLowerCase e)) d || includes d (trim (toLowerCase e))) := by
  simp only [matchesDeptDomain]
  simp only [triggersAIRule, Bool.or_eq_false_iff] at h
  split_ifs <;> simp_all [includes_self]

/-- No entry of the taxonomy has white space at its ends. -/
theorem taxonomy_entries_trimmed :
    ∀ p ∈ DEPARTMENT_DOMAINS, ∀ e ∈ p.2, trim (toLowerCase e) = toLowerCase e := by decide

/-- No entry of a department other than Artificial Intelligence triggers an AI-term rule. -/
theorem taxonomy_other_entries_no_trigger :
    ∀ p ∈ DEPARTMENT_DOMAINS, p.1 ≠ artificialIntelligence →
      ∀ e ∈ p.2, triggersAIRule (trim (toLowerCase e)) = false := by decide

/-- Every department of the taxonomy has at least one entry. -/
theorem taxonomy_entries_nonempty : ∀ p ∈ DEPARTMENT_DOMAINS, p.2 ≠ [] := by decide

/-- Every department of the taxonomy is a key of the table. -/
theorem lookupDepartment_isSome :
    ∀ u ∈ taxonomyDepartments, (lookupDepartment u).isSome = true := by decide

/-- A successful read of the table returns one of its rows. -/
theorem lookupDepartment_mem (u : Str) (ds : List Str) (h : lookupDepartment u = some ds) :
    (u, ds) ∈ DEPARTMENT_DOMAINS := by
  unfold lookupDepartment at h
  rcases hf : DEPARTMENT_DOMAINS.find? (fun e => e.1 == u) with _ | p
  · simp [hf] at h
  · simp [hf] at h
    have h1 := List.find?_some hf
    have h2 := List.mem_of_find?_eq_some hf
    simp at h1
    rcases p with ⟨a, b⟩
    simp at h h1
    subst h; subst h1
    exact h2

/-- On a domain that triggers an AI-term rule, against a non-empty list of entries none of
which triggers such a rule unless the department is Artificial Intelligence, the matcher
answers whether the department is Artificial Intelligence. -/
theorem domainMatches_of_trigger (u : Str) (ds : List Str) (domain : Option Str)
    (h : triggersAIRule (normalizeDomain domain) = true) (hne : ds ≠ [])
    (hds : u ≠ artificialIntelligence →
      ∀ e ∈ ds, triggersAIRule (trim (toLowerCase e)) = false) :
    domainMatches u ds domain = decide (u = artificialIntelligence) := by
  unfold domainMatches
  by_cases hu : u = artificialIntelligence
  · obtain ⟨e, he⟩ := List.exists_mem_of_ne_nil ds hne
    simp only [hu, decide_True, List.any_eq_true]
    exact ⟨e, he, by rw [matchesDeptDomain_of_trigger _ _ _ h]; simp⟩
  · simp only [hu, decide_False, List.any_eq_false]
    intro e he
    rw [matchesDeptDomain_of_trigger _ _ _ h]
    have hne2 : normalizeDomain domain ≠ trim (toLowerCase e) := by
      intro heq
      have := hds hu e he
      rw [← heq, h] at this
      exact Bool.noConfusion this
    simp [hne2, hu]

/-- On a domain that triggers no AI-term rule the matcher answers by containment, in one
direction or the other, with one of the entries. -/
theorem domainMatches_of_no_trigger (u : Str) (ds : List Str) (domain : Option Str)
    (h : triggersAIRule (normalizeDomain domain) = false) :
    domainMatches u ds domain = true ↔
      ∃ e ∈ ds, includes (trim (toLowerCase e)) (normalizeDomain domain) = true ∨
        includes (normalizeDomain domain) (trim (toLowerCase e)) = true := by
  unfold domainMatches
  simp only [List.any_eq_true]
  constructor
  · rintro ⟨e, he, hm⟩
    rw [matchesDeptDomain_of_no_trigger _ _ _ h] at hm
    exact ⟨e, he, by simpa using hm⟩
  · rintro ⟨e, he, hm⟩
    refine ⟨e, he, ?_⟩
    rw [matchesDeptDomain_of_no_trigger _ _ _ h]
    simpa using hm

/-! ## Department precedence and the domain matcher: the claims -/

/-- C1. In the compatibility effect of the detail view, for an internship whose
`departments` list is non-empty and a student with a department, `departmentMismatch` is
true exactly when the list does not contain the student's department, and the result is the
same whatever the internship's `domains` are: domain inference is not consulted. -/
theorem departmentMismatch_departments_first (internship : Internship) (userData : UserData)
    (userDepartment : Str) (ds : List Str)
    (hdept : userData.department = some userDepartment) (hne : userDepartment ≠ [])
    (hds : internship.departments = some ds) (hlen : ds ≠ []) :
    departmentMismatch (some internship) (some userData) = some (decide (userDepartment ∉ ds)) ∧
    ∀ domains : Option (List (Option Str)),
      departmentMismatch (some { internship with domains := domains }) (some userData) =
        departmentMismatch (some internship) (some userData) := by
  have hlen2 : 0 < ds.length := List.length_pos.2 hlen
  have key : ∀ domains : Option (List (Option Str)),
      departmentMismatch (some { internship with domains := domains }) (some userData) =
        some (decide (userDepartment ∉ ds)) := by
    intro domains
    simp [departmentMismatch, hdept, hne, hasDepartments, departmentsInclude, hds, hlen2]
  refine ⟨?_, fun domains => ?_⟩
  · simpa using key internship.domains
  · rw [key domains]
    simpa using (key internship.domains).symm

/-- C1 at a concrete input: the internship lists Civil Engineering only, so a Computer
Science student is mismatched, although domain inference alone (the same internship
without its `departments`) reports no mismatch. -/
theorem departmentMismatch_departments_first_witness :
    departmentMismatch (some civilOnlyInternship) (some csStudent) = some true ∧
    departmentMismatch (some { civilOnlyInternship with departments := none })
      (some csStudent) = some false ∧
    departmentMismatch (some { civilOnlyInternship with domains := none })
      (some csStudent) = departmentMismatch (some civilOnlyInternship) (some csStudent) := by
  have h := departmentMismatch_departments_first civilOnlyInternship csStudent
    "Computer Science".toList ["Civil Engineering".toList] rfl (by decide) rfl (by decide)
  refine ⟨?_, by decide, h.2 none⟩
  rw [h.1]
  decide

/-- C2 fails as stated: with `showAll` true the filter retains an internship that is
expired and whose criteria the student does not meet, and `canApply` is true for it. -/
theorem canApply_ignores_expiry_and_eligibility :
    browseAllState.showAllInternships = true ∧
    expiredStrictInternship ∈ filteredInternships 10 browseAllState [expiredStrictInternship] ∧
    isExpired 10 10 expiredStrictInternship = true ∧
    isEligible (fun _ => none) (some expiredStrictInternship) (some lowCgpaStudent)
      (some "student".toList) = false ∧
    canApply browseAllState expiredStrictInternship = true := by
  refine ⟨rfl, ?_, by decide, ?_, by decide⟩
  · simp [filteredInternships, keepInternship, browseAllState, matchesSearch]
  · simp [isEligible, expiredStrictInternship, lowCgpaStudent, criteriaType, truthy,
      numberOrNull, toNumber, isNaN, numLt, emptyCriteria]
    norm_num

/-- C2, amended. `canApply` is true when `showAll` is false; when `showAll` is true it is
true exactly when the student has no department or the internship's `departments` list
contains the student's department. The eligibility criteria and the deadline of the
internship have no part in it. -/
theorem canApply_department_only (st : HomeState) (internship : Internship) :
    (st.showAllInternships = false → canApply st internship = true) ∧
    (st.showAllInternships = true →
      (canApply st internship = true ↔
        st.userDepartment = [] ∨
          ∃ ds, internship.departments = some ds ∧ st.userDepartment ∈ ds)) ∧
    (∀ (crit : Option EligibilityCriteria) (date : DateField),
      canApply st { internship with eligibilityCriteria := crit, firstRoundDate := date } =
        canApply st internship) := by
  refine ⟨fun h => by simp [canApply, h], fun h => ?_, fun crit date => rfl⟩
  rcases hd : internship.departments with _ | ds
  · simp [canApply, h, hasDepartments, departmentsInclude, hd, List.isEmpty_iff]
  · by_cases hm : st.userDepartment ∈ ds
    · have hpos : 0 < ds.length := List.length_pos_of_mem hm
      simp [canApply, h, hasDepartments, departmentsInclude, hd, hm, hpos]
    · simp only [canApply, h, hasDepartments, departmentsInclude, hd, List.isEmpty_iff]
      by_cases he : st.userDepartment = []
      · simp [he]
      · by_cases hl : ds.length > 0 <;> simp [he, hm, hl]

/-- C3 fails as stated: the terms `ai` and `ml` act by equality only. "Email Marketing"
contains `ai` and does not match Artificial Intelligence; "Cloud Computing and HTML"
contains `ml` and matches Computer Science through the containment rule. -/
theorem ai_substring_not_exclusive :
    includes (normalizeDomain (some "Email Marketing".toList)) "ai".toList = true ∧
    artificialIntelligence ∈ taxonomyDepartments ∧
    matchesDepartment (some "Email Marketing".toList) artificialIntelligence = some false ∧
    includes (normalizeDomain (some "Cloud Computing and HTML".toList)) "ml".toList = true ∧
    "Computer Science".toList ∈ taxonomyDepartments ∧
    matchesDepartment (some "Cloud Computing and HTML".toList) "Computer Science".toList =
      some true := by
  decide

/-- C3, amended. For a domain whose normalized form contains one of "artificial
intelligence", "machine learning", "deep learning", "neural network", "computer vision",
"natural language processing", "nlp", or is equal to "ai" or to "ml", and a department of
the taxonomy, the matcher reports a match if and only if the department is Artificial
Intelligence; for every other department the answer is no match. -/
theorem ai_term_matches_only_ai (domain : Option Str) (userDepartment : Str)
    (hdept : userDepartment ∈ taxonomyDepartments)
    (hai : triggersAIRule (normalizeDomain domain) = true) :
    matchesDepartment domain userDepartment =
      some (decide (userDepartment = artificialIntelligence)) := by
  have hsome := lookupDepartment_isSome userDepartment hdept
  rcases hl : lookupDepartment userDepartment with _ | ds
  · simp [hl] at hsome
  · have hmem := lookupDepartment_mem userDepartment ds hl
    simp only [matchesDepartment, hl, Option.map_some']
    rw [domainMatches_of_trigger userDepartment ds domain hai
      (taxonomy_entries_nonempty _ hmem)
      (fun hu => taxonomy_other_entries_no_trigger _ hmem hu)]

/-- C3, amended, at concrete inputs: "Intro to NLP" matches Artificial Intelligence and
does not match Computer Science. -/
theorem ai_term_matches_only_ai_witness :
    matchesDepartment (some "Intro to NLP".toList) artificialIntelligence = some true ∧
    matchesDepartment (some "Intro to NLP".toList) "Computer Science".toList = some false :=
  ⟨by rw [ai_term_matches_only_ai (some "Intro to NLP".toList) artificialIntelligence
        (by decide) (by decide)]; decide,
   by rw [ai_term_matches_only_ai (some "Intro to NLP".toList) "Computer Science".toList
        (by decide) (by decide)]; decide⟩

/-- C4. With the taxonomy of the detail view, "Machine Learning" does not match Computer
Science, nor any other department of the taxonomy than Artificial Intelligence, and it
matches Artificial Intelligence. -/
theorem machine_learning_matches_ai_only :
    matchesDepartment (some "Machine Learning".toList) "Computer Science".toList =
      some false ∧
    (∀ d ∈ taxonomyDepartments, d ≠ artificialIntelligence →
      matchesDepartment (some "Machine Learning".toList) d = some false) ∧
    matchesDepartment (some "Machine Learning".toList) artificialIntelligence =
      some true := by
  decide

/-- C5, the code at the failing input: a `null` domain and an empty domain string match
every department of the taxonomy, since every entry includes the empty string. -/
theorem empty_domain_matches_every_department :
    matchesDepartment none "Computer Science".toList = some true ∧
    (∀ d ∈ taxonomyDepartments,
      matchesDepartment none d = some true ∧ matchesDepartment (some []) d = some true ∧
      matchesDepartment (some "  ".toList) d = some true) := by
  decide

/-- C6. A domain whose normalized form equals the lowercased form of an entry of a
department's list matches that department. This holds for each department of the taxonomy
and, more generally, for any list of entries in which the entry stands, whatever precedes
and follows it; "Data Science" matches Computer Science. -/
theorem exact_entry_matches :
    (∀ userDepartment ∈ taxonomyDepartments, ∀ ds, lookupDepartment userDepartment = some ds →
      ∀ entry ∈ ds, ∀ domain : Option Str, normalizeDomain domain = toLowerCase entry →
        matchesDepartment domain userDepartment = some true) ∧
    (∀ (userDepartment : Str) (before after : List Str) (entry : Str) (domain : Option Str),
      normalizeDomain domain = trim (toLowerCase entry) →
        domainMatches userDepartment (before ++ entry :: after) domain = true) ∧
    matchesDepartment (some "Data Science".toList) "Computer Science".toList = some true := by
  have gen : ∀ (u : Str) (ds : List Str) (entry : Str) (domain : Option Str),
      entry ∈ ds → normalizeDomain domain = trim (toLowerCase entry) →
        domainMatches u ds domain = true := by
    intro u ds entry domain hmem heq
    simp only [domainMatches, List.any_eq_true]
    exact ⟨entry, hmem, by simp [matchesDeptDomain, heq]⟩
  refine ⟨?_, ?_, by decide⟩
  · intro u _ ds hl entry he domain heq
    have hmem := lookupDepartment_mem u ds hl
    simp only [matchesDepartment, hl, Option.map_some']
    rw [gen u ds entry domain he (by rw [taxonomy_entries_trimmed _ hmem entry he]; exact heq)]
  · intro u before after entry domain heq
    exact gen u _ entry domain (by simp) heq

/-- C7. For a domain whose normalized form triggers no AI-term rule and a department of the
taxonomy, the matcher reports a match if and only if some entry of the department,
lowercased, contains the normalized domain or is contained in it. -/
theorem fuzzy_match_iff_containment (domain : Option Str) (userDepartment : Str)
    (hdept : userDepartment ∈ taxonomyDepartments)
    (hno : triggersAIRule (normalizeDomain domain) = false) :
    ∃ ds b, lookupDepartment userDepartment = some ds ∧
      matchesDepartment domain userDepartment = some b ∧
      (b = true ↔ ∃ entry ∈ ds,
        includes (toLowerCase entry) (normalizeDomain domain) = true ∨
        includes (normalizeDomain domain) (toLowerCase entry) = true) := by
  have hsome := lookupDepartment_isSome userDepartment hdept
  rcases hl : lookupDepartment userDepartment with _ | ds
  · simp [hl] at hsome
  · have hmem := lookupDepartment_mem userDepartment ds hl
    refine ⟨ds, domainMatches userDepartment ds domain, rfl, by simp [matchesDepartment, hl], ?_⟩
    rw [domainMatches_of_no_trigger userDepartment ds domain hno]
    constructor
    · rintro ⟨e, he, h⟩
      exact ⟨e, he, by rwa [taxonomy_entries_trimmed _ hmem e he] at h⟩
    · rintro ⟨e, he, h⟩
      exact ⟨e, he, by rwa [taxonomy_entries_trimmed _ hmem e he]⟩

/-- C7 at a concrete input: "Cloud" triggers no AI-term rule, is contained in the entry
"cloud computing" of Computer Science, and matches that department. -/
theorem fuzzy_match_iff_containment_witness :
    "Computer Science".toList ∈ taxonomyDepartments ∧
    triggersAIRule (normalizeDomain (some "Cloud".toList)) = false ∧
    matchesDepartment (some "Cloud".toList) "Computer Science".toList = some true ∧
    ∃ ds b, lookupDepartment "Computer Science".toList = some ds ∧
      matchesDepartment (some "Cloud".toList) "Computer Science".toList = some b ∧
      (b = true ↔ ∃ entry ∈ ds,
        includes (toLowerCase entry) (normalizeDomain (some "Cloud".toList)) = true ∨
        includes (normalizeDomain (some "Cloud".toList)) (toLowerCase entry) = true) :=
  ⟨by decide, by decide, by decide,
   fuzzy_match_iff_containment (some "Cloud".toList) "Computer Science".toList
     (by decide) (by decide)⟩

/-! ## The eligibility evaluator: the claims -/

/-- C8. For a student who passes the allowed-years check and criteria of type
`percentage`: without a numeric `minPercentage` the student is eligible; with a
`minPercentage` that is a number and tenth percentage, twelfth percentage and CGPA that
are all numbers, the student is eligible if and only if each of tenth, twelfth and
`cgpa * 9.5` is at least `minPercentage`, the product being the one the machine computes:
the exact product rounded to the nearest double. -/
theorem percentage_eligibility (stringToNumber : Str → JSNumber) (internship : Internship)
    (crit : EligibilityCriteria) (userData : UserData)
    (hcrit : internship.eligibilityCriteria = some crit)
    (htype : crit.type = .string "percentage".toList)
    (hyear : yearExcluded crit userData = false) :
    (numberOrNull crit.minPercentage = none →
      isEligible stringToNumber (some internship) (some userData) studentRole = true) ∧
    (∀ m tenth twelfth cgpa : ℚ, crit.minPercentage = .number (some m) →
      toNumber stringToNumber userData.tenthPercentage = some tenth →
      toNumber stringToNumber userData.twelfthPercentage = some twelfth →
      toNumber stringToNumber userData.cgpa = some cgpa →
      (isEligible stringToNumber (some internship) (some userData) studentRole = true ↔
        tenth ≥ m ∧ twelfth ≥ m ∧ roundToDouble (cgpa * 9.5) ≥ m)) := by
  have ht : criteriaType crit = .string "percentage".toList := by
    simp [criteriaType, htype, truthy]
  constructor
  · intro hmin
    simp [isEligible, hcrit, studentRole, hyear, ht, hmin]
  · intro m tenth twelfth cgpa hm h10 h12 hc
    simp [isEligible, hcrit, studentRole, hyear, ht, hm, h10, h12, hc, numberOrNull, isNaN,
      numLt, numMul]

/-- C8 at concrete inputs. The input of the specification: CGPA 8.0 (76 percent), tenth 75,
twelfth 90 and `minPercentage` 80 give an ineligible student. Two inputs at the edge of the
rounding: CGPA 5.02 against 47.69 is eligible, the rounded product being the double 47.69
although the exact product of the doubles is below it; CGPA 8.2 against 77.9 is ineligible,
the double 8.2 being below the decimal. -/
theorem percentage_eligibility_witness :
    isEligible (fun _ => none) (some (internshipWith percentage80)) (some student_8_75_90)
      studentRole = false ∧
    roundToDouble 5.02 * 9.5 < roundToDouble 47.69 ∧
    isEligible (fun _ => none) (some (internshipWith (percentageAtLeast 47.69)))
      (some (studentWithCgpa 5.02)) studentRole = true ∧
    isEligible (fun _ => none) (some (internshipWith (percentageAtLeast 77.9)))
      (some (studentWithCgpa 8.2)) studentRole = false := by
  have h1 := (percentage_eligibility (fun _ => none) (internshipWith percentage80)
    percentage80 student_8_75_90 rfl rfl (by decide)).2 80 75 90 8 rfl rfl rfl rfl
  have h2 := (percentage_eligibility (fun _ => none)
    (internshipWith (percentageAtLeast 47.69)) (percentageAtLeast 47.69)
    (studentWithCgpa 5.02) rfl rfl (by decide)).2
    (roundToDouble 47.69) 90 90 (roundToDouble 5.02) rfl rfl rfl rfl
  have h3 := (percentage_eligibility (fun _ => none)
    (internshipWith (percentageAtLeast 77.9)) (percentageAtLeast 77.9)
    (studentWithCgpa 8.2) rfl rfl (by decide)).2
    (roundToDouble 77.9) 90 90 (roundToDouble 8.2) rfl rfl rfl rfl
  refine ⟨?_, by with_unfolding_all decide, ?_, ?_⟩
  · rw [Bool.eq_false_iff]
    intro he
    exact absurd (h1.1 he).2.2 (by with_unfolding_all decide)
  · exact h2.2 (by with_unfolding_all decide)
  · rw [Bool.eq_false_iff]
    intro he
    exact absurd (h3.1 he).2.2 (by with_unfolding_all decide)

/-- C9. For a student who passes the allowed-years check and criteria whose type is not
`percentage` (absent criteria included), the student is ineligible if and only if `minCgpa`
is a number and the student's CGPA is a number strictly below it; in every other case the
student is eligible. -/
theorem cgpa_eligibility (stringToNumber : Str → JSNumber) (internship : Internship)
    (userData : UserData)
    (htype : criteriaType (internship.eligibilityCriteria.getD emptyCriteria) ≠
      .string "percentage".toList)
    (hyear : yearExcluded (internship.eligibilityCriteria.getD emptyCriteria) userData =
      false) :
    isEligible stringToNumber (some internship) (some userData) studentRole = false ↔
      ∃ m cgpa : ℚ,
        (internship.eligibilityCriteria.getD emptyCriteria).minCgpa = .number (some m) ∧
        toNumber stringToNumber userData.cgpa = some cgpa ∧ cgpa < m := by
  simp only [isEligible, studentRole, bne_self_eq_false, Bool.false_eq_true, if_false, hyear,
    beq_iff_eq, htype]
  rcases hmin : (internship.eligibilityCriteria.getD emptyCriteria).minCgpa with _ | _ | x | s
  · simp [numberOrNull]
  · simp [numberOrNull]
  · rcases x with _ | m <;> rcases hc : toNumber stringToNumber userData.cgpa with _ | c <;>
      simp [numberOrNull, isNaN, numLt]
  · simp [numberOrNull]

/-- C9 at concrete inputs: with `minCgpa` 8, a CGPA of 6 is ineligible and a CGPA equal to
8 is eligible. -/
theorem cgpa_eligibility_witness :
    isEligible (fun _ => none) (some (internshipWith cgpa8)) (some lowCgpaStudent)
      studentRole = false ∧
    isEligible (fun _ => none) (some (internshipWith cgpa8)) (some student_8_75_90)
      studentRole = true := by
  constructor
  · exact (cgpa_eligibility (fun _ => none) (internshipWith cgpa8) lowCgpaStudent
      (by decide) (by decide)).2 ⟨8, 6, rfl, rfl, by norm_num⟩
  · have h := cgpa_eligibility (fun _ => none) (internshipWith cgpa8) student_8_75_90
      (by decide) (by decide)
    rw [← Bool.not_eq_false]
    intro hf
    obtain ⟨m, c, hm, hc, hlt⟩ := h.1 hf
    have hm8 : m = 8 := by
      have : JSValue.number (some 8) = JSValue.number (some m) := hm
      injection this with h1
      injection h1 with h2
      exact h2.symm
    have hc8 : c = 8 := by
      have : (some 8 : JSNumber) = some c := hc
      injection this with h1
      exact h1.symm
    rw [hm8, hc8] at hlt
    exact lt_irrefl _ hlt

/-- C10 fails as stated: under criteria of type `cgpa` with `minCgpa` 8, a student whose
CGPA is absent, or is a text that is no numeral, is eligible: the comparison is skipped. -/
theorem missing_cgpa_is_eligible :
    toNumber (fun _ => none) studentNoCgpa.cgpa = none ∧
    isEligible (fun _ => none) (some (internshipWith cgpa8)) (some studentNoCgpa)
      studentRole = true ∧
    toNumber (fun _ => none) studentTextCgpa.cgpa = none ∧
    isEligible (fun _ => none) (some (internshipWith cgpa8)) (some studentTextCgpa)
      studentRole = true := by
  decide

/-- C10, amended. Under criteria of type `percentage` with a numeric `minPercentage`, a
student for whom one of tenth percentage, twelfth percentage and CGPA does not convert to a
number is ineligible. Under criteria of any other type, a CGPA that does not convert to a
number is not compared with `minCgpa`: the student stays eligible, provided the
allowed-years check passes. -/
theorem unparsable_scores (stringToNumber : Str → JSNumber) (internship : Internship)
    (crit : EligibilityCriteria) (userData : UserData)
    (hcrit : internship.eligibilityCriteria = some crit) :
    (criteriaType crit = .string "percentage".toList →
      (∃ m, crit.minPercentage = .number m) →
      (toNumber stringToNumber userData.tenthPercentage = none ∨
        toNumber stringToNumber userData.twelfthPercentage = none ∨
        toNumber stringToNumber userData.cgpa = none) →
      isEligible stringToNumber (some internship) (some userData) studentRole = false) ∧
    (criteriaType crit ≠ .string "percentage".toList →
      toNumber stringToNumber userData.cgpa = none →
      yearExcluded crit userData = false →
      isEligible stringToNumber (some internship) (some userData) studentRole = true) := by
  constructor
  · rintro ht ⟨m, hm⟩ hnan
    by_cases hy : yearExcluded crit userData = true
    · simp [isEligible, hcrit, studentRole, hy]
    · rw [Bool.not_eq_true] at hy
      rcases hnan with h | h | h <;>
        simp [isEligible, hcrit, studentRole, hy, ht, hm, numberOrNull, isNaN, h]
  · intro ht hc hy
    simp only [isEligible, hcrit, Option.getD_some, studentRole, bne_self_eq_false,
      Bool.false_eq_true, if_false, hy, beq_iff_eq, ht, hc]
    rcases numberOrNull crit.minCgpa with _ | m <;> simp [isNaN]

/-- C10, amended, at concrete inputs: with `minPercentage` 80 a student without a CGPA is
ineligible; with `minCgpa` 8 the same student is eligible. -/
theorem unparsable_scores_witness :
    isEligible (fun _ => none) (some (internshipWith percentage80)) (some studentNoCgpa)
      studentRole = false ∧
    isEligible (fun _ => none) (some (internshipWith cgpa8)) (some studentNoCgpa)
      studentRole = true :=
  ⟨(unparsable_scores (fun _ => none) (internshipWith percentage80) percentage80
      studentNoCgpa rfl).1 (by decide) ⟨some 80, rfl⟩ (Or.inr (Or.inr rfl)),
   (unparsable_scores (fun _ => none) (internshipWith cgpa8) cgpa8 studentNoCgpa rfl).2
      (by decide) rfl (by decide)⟩

/-! ## Allowed years and permissive defaults: the claims -/

/-- C11. For a student whose `currentYear` is set and criteria whose `allowedYears` is a
non-empty list that does not contain it, `isEligible` is false whatever the type, the
thresholds and the scores. When `allowedYears` is empty (or no array) or `currentYear` is
unset, the year check rejects nobody: eligibility is what it is without `allowedYears`. -/
theorem allowed_years_check (stringToNumber : Str → JSNumber) (internship : Internship)
    (crit : EligibilityCriteria) (userData : UserData)
    (hcrit : internship.eligibilityCriteria = some crit) :
    (∀ years, crit.allowedYears = some years → years ≠ [] →
      truthy userData.currentYear = true → userData.currentYear ∉ years →
      isEligible stringToNumber (some internship) (some userData) studentRole = false) ∧
    (crit.allowedYears.getD [] = [] ∨ truthy userData.currentYear = false →
      yearExcluded crit userData = false ∧
      isEligible stringToNumber (some internship) (some userData) studentRole =
        isEligible stringToNumber
          (some { internship with
            eligibilityCriteria := some { crit with allowedYears := none } })
          (some userData) studentRole) := by
  constructor
  · intro years hy hne hset hnot
    have hpos : 0 < years.length := List.length_pos.2 hne
    have hex : yearExcluded crit userData = true := by
      simp [yearExcluded, hy, hpos, hset, hnot]
    simp [isEligible, hcrit, studentRole, hex]
  · intro h
    have hex : yearExcluded crit userData = false := by
      rcases h with h | h
      · simp [yearExcluded, h]
      · simp [yearExcluded, h]
    have hex2 : yearExcluded { crit with allowedYears := none } userData = false := by
      simp [yearExcluded]
    refine ⟨hex, ?_⟩
    simp only [isEligible, hcrit, Option.getD_some, hex, hex2, criteriaType]

/-- C11 at concrete inputs: a second-year student with top scores is ineligible for an
internship open to years 3 and 4, and eligible once the list of years is empty. -/
theorem allowed_years_check_witness :
    isEligible (fun _ => none) (some (internshipWith years34)) (some secondYearStudent)
      studentRole = false ∧
    isEligible (fun _ => none)
      (some (internshipWith { years34 with allowedYears := some [] }))
      (some secondYearStudent) studentRole = true := by
  refine ⟨(allowed_years_check (fun _ => none) (internshipWith years34) years34
    secondYearStudent rfl).1 _ rfl (by decide) (by decide) (by decide), ?_⟩
  rw [((allowed_years_check (fun _ => none)
    (internshipWith { years34 with allowedYears := some [] })
    { years34 with allowedYears := some [] } secondYearStudent rfl).2 (Or.inl rfl)).2]
  decide

/-- C12. For an internship whose criteria are absent, or carry no numeric `minCgpa`, no
numeric `minPercentage` and no allowed year (the empty structure in particular),
`isEligible` is true for every student record, every role and every way stored text
converts to numbers. -/
theorem empty_criteria_eligible (stringToNumber : Str → JSNumber) (internship : Internship)
    (userData : Option UserData) (userRole : Option Str)
    (hcrit : internship.eligibilityCriteria = none ∨
      ∃ crit, internship.eligibilityCriteria = some crit ∧
        numberOrNull crit.minCgpa = none ∧ numberOrNull crit.minPercentage = none ∧
        crit.allowedYears.getD [] = []) :
    isEligible stringToNumber (some internship) userData userRole = true := by
  have key : ∀ crit : EligibilityCriteria, numberOrNull crit.minCgpa = none →
      numberOrNull crit.minPercentage = none → crit.allowedYears.getD [] = [] →
      internship.eligibilityCriteria.getD emptyCriteria = crit →
      isEligible stringToNumber (some internship) userData userRole = true := by
    intro crit h1 h2 h3 h4
    rcases userData with _ | userData
    · simp [isEligible]
    · have hex : yearExcluded crit userData = false := by simp [yearExcluded, h3]
      simp [isEligible, h4, h1, h2, hex]
  rcases hcrit with h | ⟨crit, h, h1, h2, h3⟩
  · exact key emptyCriteria rfl rfl rfl (by simp [h])
  · exact key crit h1 h2 h3 (by simp [h])

/-- C12 at concrete inputs: a student whose CGPA is the text "N/A" is eligible for an
internship without criteria and for one with the empty criteria. -/
theorem empty_criteria_eligible_witness :
    isEligible (fun _ => none) (some civilOnlyInternship) (some studentTextCgpa)
      studentRole = true ∧
    isEligible (fun _ => none) (some (internshipWith emptyCriteria)) (some studentTextCgpa)
      studentRole = true :=
  ⟨empty_criteria_eligible (fun _ => none) civilOnlyInternship (some studentTextCgpa)
      studentRole (Or.inl rfl),
   empty_criteria_eligible (fun _ => none) (internshipWith emptyCriteria)
      (some studentTextCgpa) studentRole (Or.inr ⟨emptyCriteria, rfl, rfl, rfl, rfl⟩)⟩

/-- C13. When no profile is loaded, or the viewer's role is not `student`, `isEligible` is
true for every internship and every criteria. -/
theorem non_student_eligible (stringToNumber : Str → JSNumber)
    (internship : Option Internship) (userData : Option UserData) (userRole : Option Str)
    (h : userData = none ∨ userRole ≠ studentRole) :
    isEligible stringToNumber internship userData userRole = true := by
  rcases internship with _ | internship
  · rfl
  · rcases userData with _ | userData
    · rfl
    · rcases h with h | h
      · exact absurd h (by simp)
      · have hr : (userRole != some "student".toList) = true := by
          simpa [studentRole] using h
        simp only [isEligible, hr, if_true]

/-- C13 at concrete inputs: a faculty viewer, and a viewer without profile, are eligible
under criteria that no score satisfies. -/
theorem non_student_eligible_witness :
    isEligible (fun _ => none) (some (internshipWith strictCriteria)) (some lowCgpaStudent)
      facultyRole = true ∧
    isEligible (fun _ => none) (some (internshipWith strictCriteria)) none studentRole =
      true ∧
    isEligible (fun _ => none) (some (internshipWith strictCriteria)) (some lowCgpaStudent)
      studentRole = false :=
  ⟨non_student_eligible (fun _ => none) (some (internshipWith strictCriteria))
      (some lowCgpaStudent) facultyRole (Or.inr (by decide)),
   non_student_eligible (fun _ => none) (some (internshipWith strictCriteria)) none
      studentRole (Or.inl rfl),
   by
    simp [isEligible, internshipWith, strictCriteria, lowCgpaStudent, studentRole,
      yearExcluded, truthy, criteriaType, numberOrNull, toNumber, isNaN, numLt]
    norm_num⟩

/-! ## The list filter: the claims -/

/-- C14 fails as stated: at the instant 10 an internship whose deadline is the instant 10
is not expired, and the filter keeps it while `showExpired` is false. -/
theorem deadline_now_not_expired :
    deadlineAtTen.firstRoundDate = .date (some 10) ∧
    isExpired 10 10 deadlineAtTen = false ∧
    scopedState.showExpiredInternships = false ∧
    deadlineAtTen ∈ filteredInternships 10 scopedState [deadlineAtTen] := by
  decide

/-- C14, amended. An internship with a valid `firstRoundDate` is expired exactly when that
date is strictly before `now`. When the date is equal to `now`, `isExpired` is false and
the filter treats the internship with `showExpired` false as it does with `showExpired`
true: the deadline excludes nothing. -/
theorem expired_iff_strictly_before (t0 now t : Int) (st : HomeState)
    (internship : Internship) (hdate : internship.firstRoundDate = .date (some t)) :
    (isExpired t0 now internship = true ↔ t < now) ∧
    (deadlinePassed now internship = true ↔ t < now) ∧
    (t = now → isExpired t0 now internship = false ∧
      keepInternship now st internship =
        keepInternship now { st with showExpiredInternships := true } internship) := by
  have h1 : isExpired t0 now internship = decide (t < now) := by
    simp [isExpired, hdate, dateLt]
  have h2 : deadlinePassed now internship = decide (t < now) := by
    simp [deadlinePassed, hdate, dateLt]
  refine ⟨by simp [h1], by simp [h2], fun heq => ?_⟩
  subst heq
  refine ⟨by simp [h1], ?_⟩
  simp [keepInternship, h2]

/-- C14, amended, at concrete inputs: the deadline 10 is not expired at the instant 10 and
is expired at the instant 11. -/
theorem expired_iff_strictly_before_witness :
    isExpired 10 10 deadlineAtTen = false ∧ isExpired 11 11 deadlineAtTen = true ∧
    deadlineAtTen ∉ filteredInternships 11 scopedState [deadlineAtTen] := by
  have h10 := expired_iff_strictly_before 10 10 10 scopedState deadlineAtTen rfl
  have h11 := expired_iff_strictly_before 11 11 10 scopedState deadlineAtTen rfl
  exact ⟨(h10.2.2 rfl).1, h11.1.2 (by decide), by decide⟩

/-- C15 fails as stated: for a viewer without department, with `showAll` false, the filter
keeps an internship that has no `departments` field. -/
theorem scoped_view_keeps_internship_without_departments :
    anonymousState.showAllInternships = false ∧
    noDepartmentsInternship.departments = none ∧
    noDepartmentsInternship ∈
      filteredInternships 10 anonymousState [noDepartmentsInternship] := by
  decide

/-- C15, amended. When `showAll` is false and the viewer has a department (the department
filter is on), every internship of the filter's result has a non-empty `departments` list
that contains the viewer's department; an internship without `departments` is not in the
result. -/
theorem scoped_view_departments (now : Int) (st : HomeState) (internships : List Internship)
    (internship : Internship) (hall : st.showAllInternships = false)
    (hfilter : st.filterByDepartment = true) (hdept : st.userDepartment ≠ [])
    (hmem : internship ∈ filteredInternships now st internships) :
    ∃ ds, internship.departments = some ds ∧ ds ≠ [] ∧ st.userDepartment ∈ ds := by
  have hkeep : keepInternship now st internship = true :=
    (List.mem_filter.1 hmem).2
  have hne : st.userDepartment.isEmpty = false := by
    simpa [List.isEmpty_iff] using hdept
  rcases hd : internship.departments with _ | ds
  · simp [keepInternship, hall, hfilter, hne, hasDepartments, hd] at hkeep
  · by_cases hin : st.userDepartment ∈ ds
    · exact ⟨ds, rfl, List.ne_nil_of_mem hin, hin⟩
    · simp [keepInternship, hall, hfilter, hne, hasDepartments, departmentsInclude, hd,
        hin] at hkeep

/-- C15, amended, at concrete inputs: the scoped view of a Computer Science student keeps
the Computer Science internship and drops the one without `departments`. -/
theorem scoped_view_departments_witness :
    filteredInternships 10 scopedState [noDepartmentsInternship, deadlineAtTen] =
      [deadlineAtTen] ∧
    ∃ ds, deadlineAtTen.departments = some ds ∧ ds ≠ [] ∧ scopedState.userDepartment ∈ ds :=
  ⟨by decide,
   scoped_view_departments 10 scopedState [noDepartmentsInternship, deadlineAtTen]
     deadlineAtTen rfl rfl (by decide) (by decide)⟩

/-- The search gate, spelled out: the term is empty, or its lowercased form occurs in the
lowercased title, company name or one of the domains. -/
theorem matchesSearch_iff (searchTerm : Str) (internship : Internship) :
    matchesSearch searchTerm internship = true ↔
      searchTerm = [] ∨
      (∃ title, internship.title = some title ∧
        toLowerCase searchTerm <:+: toLowerCase title) ∨
      (∃ company, internship.companyName = some company ∧
        toLowerCase searchTerm <:+: toLowerCase company) ∨
      (∃ domains domain, internship.domains = some domains ∧ some domain ∈ domains ∧
        toLowerCase searchTerm <:+: toLowerCase domain) := by
  have hdom : ∀ domains : List (Option Str),
      (domains.any (fun domain =>
        match domain with
        | none => false
        | some d => includes (toLowerCase d) (toLowerCase searchTerm))) = true ↔
      ∃ domain, some domain ∈ domains ∧
        toLowerCase searchTerm <:+: toLowerCase domain := by
    intro domains
    simp only [List.any_eq_true]
    constructor
    · rintro ⟨x, hx, h⟩
      rcases x with _ | d
      · exact absurd h (by simp)
      · exact ⟨d, hx, (includes_iff _ _).1 h⟩
    · rintro ⟨d, hd, h⟩
      exact ⟨some d, hd, (includes_iff _ _).2 h⟩
  simp only [matchesSearch, Bool.or_eq_true, List.isEmpty_iff, or_assoc]
  refine or_congr Iff.rfl (or_congr ?_ (or_congr ?_ ?_))
  · rcases internship.title with _ | t <;> simp [includes_iff]
  · rcases internship.companyName with _ | c <;> simp [includes_iff]
  · rcases internship.domains with _ | ds
    · simp
    · simp only [hdom ds, Option.some.injEq, exists_and_left, exists_eq_left']

/-- C16. When `showAll` is true, the filter keeps an internship if and only if it passes
the expiry gate (`showExpired` is true, or no valid `firstRoundDate` is before `now`) and
the search gate (empty term, or the term occurs, case ignored, in the title, the company
name or a domain). The department, the department switch, the applied set and the
interests play no part, and a term that matches nothing gives an empty result. -/
theorem show_all_retention (now : Int) (st : HomeState) (internship : Internship)
    (hall : st.showAllInternships = true) :
    (keepInternship now st internship = true ↔
      (st.showExpiredInternships = true ∨
        ∀ t, internship.firstRoundDate = .date (some t) → now ≤ t) ∧
      (st.searchTerm = [] ∨
        (∃ title, internship.title = some title ∧
          toLowerCase st.searchTerm <:+: toLowerCase title) ∨
        (∃ company, internship.companyName = some company ∧
          toLowerCase st.searchTerm <:+: toLowerCase company) ∨
        (∃ domains domain, internship.domains = some domains ∧ some domain ∈ domains ∧
          toLowerCase st.searchTerm <:+: toLowerCase domain))) ∧
    (∀ (department : Str) (switch : Bool) (applied : List Str)
        (interests : List (Option Str)),
      keepInternship now
        { st with userDepartment := department, filterByDepartment := switch,
                  appliedInternshipIds := applied, userInterests := interests }
        internship = keepInternship now st internship) ∧
    (∀ internships : List Internship,
      (∀ i ∈ internships, matchesSearch st.searchTerm i = false) →
      filteredInternships now st internships = []) := by
  have hkeep : ∀ i, keepInternship now st i =
      (!(!st.showExpiredInternships && deadlinePassed now i) &&
        matchesSearch st.searchTerm i) := by
    intro i
    simp only [keepInternship, hall]
    cases st.showExpiredInternships <;> cases deadlinePassed now i <;> simp
  have hgate : (!st.showExpiredInternships && deadlinePassed now internship) = false ↔
      (st.showExpiredInternships = true ∨
        ∀ t, internship.firstRoundDate = .date (some t) → now ≤ t) := by
    cases hs : st.showExpiredInternships
    · rcases hd : internship.firstRoundDate with _ | _ | t
      · simp [deadlinePassed, hd]
      · simp [deadlinePassed, hd]
      · rcases t with _ | t
        · simp [deadlinePassed, hd, dateLt]
        · simp [deadlinePassed, hd, dateLt]
    · simp
  refine ⟨?_, ?_, ?_⟩
  · rw [hkeep, Bool.and_eq_true, Bool.not_eq_true', hgate, matchesSearch_iff]
  · intro department switch applied interests
    simp [keepInternship, hall]
  · intro internships hnone
    simp only [filteredInternships, List.filter_eq_nil_iff]
    intro i hi
    rw [hkeep, hnone i hi]
    simp

/-- C16 at a concrete input: under `showAll` the term "ACME" keeps the internship of Acme
Labs, expired and for another department though it is, and the term "zebra" keeps
nothing. -/
theorem show_all_retention_witness :
    keepInternship 11 searchAcmeState deadlineAtTen = true ∧
    filteredInternships 11 searchZebraState
      [deadlineAtTen, noDepartmentsInternship, expiredStrictInternship] = [] :=
  ⟨((show_all_retention 11 searchAcmeState deadlineAtTen rfl).1).2
      ⟨Or.inl rfl, Or.inr (Or.inr (Or.inl ⟨"Acme Labs".toList, rfl, by decide⟩))⟩,
   (show_all_retention 11 searchZebraState deadlineAtTen rfl).2.2 _ (by decide)⟩

/-- C17. When `showAll` is false, an internship whose id is in `appliedInternshipIds` is
not in the filter's result. When `showAll` is true, the applied set has no effect on
whether an internship is kept. The internship `i4`, once applied to, leaves the scoped view
and stays in the view of all internships. -/
theorem applied_exclusion (now : Int) (st : HomeState) (internships : List Internship)
    (internship : Internship) :
    (st.showAllInternships = false → internship.id ∈ st.appliedInternshipIds →
      internship ∉ filteredInternships now st internships) ∧
    (st.showAllInternships = true → ∀ applied : List Str,
      filteredInternships now { st with appliedInternshipIds := applied } internships =
        filteredInternships now st internships) ∧
    filteredInternships 5 scopedState [deadlineAtTen] = [deadlineAtTen] ∧
    filteredInternships 5 appliedState [deadlineAtTen] = [] ∧
    filteredInternships 5 { appliedState with showAllInternships := true } [deadlineAtTen] =
      [deadlineAtTen] := by
  refine ⟨?_, ?_, by decide, by decide, by decide⟩
  · intro hall happlied hmem
    have hkeep := (List.mem_filter.1 hmem).2
    simp [keepInternship, hall, happlied] at hkeep
  · intro hall applied
    simp only [filteredInternships]
    congr 1
    funext i
    simp [keepInternship, hall]

/-- C18. The filter's result is a sublist of its input: the kept internships stand in
their input order, each no more often than in the input, and unchanged. -/
theorem filter_preserves_order (now : Int) (st : HomeState) (internships : List Internship) :
    List.Sublist (filteredInternships now st internships) internships ∧
    (∀ internship, (filteredInternships now st internships).count internship ≤
      internships.count internship) ∧
    (∀ internship, internship ∈ filteredInternships now st internships →
      internship ∈ internships) := by
  have hsub : List.Sublist (filteredInternships now st internships) internships :=
    List.filter_sublist internships
  exact ⟨hsub, fun i => hsub.count_le i, fun i hi => hsub.subset hi⟩

/-- C19, the code at the failing input: for a student of Chemical Engineering, which is not
a key of the taxonomy, and an internship with domains and no `departments`, the effect
raises a `TypeError` instead of setting `departmentMismatch`; so it does for every
department name outside the taxonomy. -/
theorem departmentMismatch_raises_outside_taxonomy :
    departmentMismatch (some noDepartmentsInternship) (some chemicalStudent) = none ∧
    (∀ (userData : UserData) (department : Str), userData.department = some department →
      department ≠ [] → lookupDepartment department = none →
      departmentMismatch (some noDepartmentsInternship) (some userData) = none) := by
  refine ⟨by decide, ?_⟩
  intro userData department hd hne hl
  simp [departmentMismatch, hd, hne, hasDepartments, noDepartmentsInternship, hl]

/-! ## Profile completeness: the claims -/

/-- The loop that pushes labels computes the labels of the fields that fail the test, in
the order of the array. -/
theorem collectMissing_eq (requiredFields : List (Str × Str)) (userData : Profile) :
    collectMissing requiredFields userData =
      (requiredFields.filter (fun f => isMissingValue (userData f.1))).map Prod.snd := by
  have gen : ∀ (fields : List (Str × Str)) (acc : List Str),
      fields.foldl
        (fun missingFields f =>
          if isMissingValue (userData f.1) then missingFields ++ [f.2] else missingFields)
        acc =
      acc ++ (fields.filter (fun f => isMissingValue (userData f.1))).map Prod.snd := by
    intro fields
    induction fields with
    | nil => intro acc; simp
    | cons f fields ih =>
      intro acc
      rw [List.foldl_cons, ih]
      by_cases h : isMissingValue (userData f.1) = true
      · simp [h]
      · simp [h]
  simpa [collectMissing] using gen requiredFields []

/-- C20, the code at the failing input: in a student record that holds a value for each of
the 16 required fields, `cocubesScore` being the number 0, and a phone number of ten
digits, no field is missing in the words of the specification; `checkProfileCompletion`
returns `missingFields = ["CoCubes Score"]` and `isComplete = false`, where the claim
expects an empty list and `isComplete = true`. On the record of the specification's
example, which holds no number, it returns `["CGPA", "GitHub Profile Link"]`. -/
theorem complete_student_record_reported_incomplete :
    (∀ f ∈ studentRequiredFields, missingPerSpec (profileZeroCocubes f.1) = false) ∧
    isTenDigits (profileZeroCocubes "phoneNumber".toList) = true ∧
    checkProfileCompletion (some profileZeroCocubes) =
      { isComplete := false, missingFields := ["CoCubes Score".toList] } ∧
    checkProfileCompletion (some profileWithoutCgpaGithub) =
      { isComplete := false,
        missingFields := ["CGPA".toList, "GitHub Profile Link".toList] } := by
  refine ⟨by decide, by decide, by with_unfolding_all decide, by decide⟩

/-- A string trims to the empty string exactly when all its characters are white space. -/
theorem trim_eq_nil_iff (s : Str) : trim s = [] ↔ ∀ c ∈ s, isWhiteSpace c = true := by
  unfold trim trimStart
  rw [List.reverse_eq_nil_iff]
  constructor
  · intro h
    rcases hd : s.dropWhile isWhiteSpace with _ | ⟨a, l⟩
    · exact List.dropWhile_eq_nil_iff.1 hd
    · have ha : isWhiteSpace a = false := by
        have := List.head_dropWhile_not isWhiteSpace s (by simp [hd])
        simpa [hd] using this
      rw [hd] at h
      have hall := List.dropWhile_eq_nil_iff.1 h a (by simp)
      rw [ha] at hall
      exact Bool.noConfusion hall
  · intro h
    have hd : s.dropWhile isWhiteSpace = [] := List.dropWhile_eq_nil_iff.2 h
    simp [hd]

/-- The values that the test of line 45 reports missing. -/
theorem isMissingValue_iff (value : JSValue) :
    isMissingValue value = true ↔
      value = .undefined ∨ value = .null ∨
      (∃ s, value = .string s ∧ ∀ c ∈ s, isWhiteSpace c = true) ∨
      value = .number (some 0) ∨ value = .number none := by
  rcases value with _ | _ | x | s
  · simp [isMissingValue, truthy]
  · simp [isMissingValue, truthy]
  · rcases x with _ | q
    · simp [isMissingValue, truthy]
    · simp [isMissingValue, truthy]
  · have h := trim_eq_nil_iff s
    by_cases hs : s = []
    · subst hs
      simp [isMissingValue, truthy]
    · simp [isMissingValue, truthy, hs, h]

/-! ## Profile completeness, continued: the claims -/

/-- C21, the code at the failing input: a present numeric value 0 is reported missing. A
faculty record complete but for `experience: 0` gets "Years of Experience" as a missing
field. The values reported missing are `undefined`, `null`, the strings made of white space
only, and also the numbers `0` and `NaN`. -/
theorem zero_is_reported_missing :
    isMissingValue (.number (some 0)) = true ∧
    checkFacultyProfileCompletion (some facultyZeroExperience) =
      { isComplete := false, missingFields := ["Years of Experience".toList] } ∧
    (∀ value, isMissingValue value = true ↔
      value = .undefined ∨ value = .null ∨
      (∃ s, value = .string s ∧ ∀ c ∈ s, isWhiteSpace c = true) ∨
      value = .number (some 0) ∨ value = .number none) := by
  refine ⟨by simp [isMissingValue, truthy], ?_, isMissingValue_iff⟩
  simp [checkFacultyProfileCompletion, collectMissing_eq, facultyRequiredFields,
    facultyZeroExperience, profileOf, isMissingValue, truthy, trim, trimStart, isWhiteSpace]

/-- Every label collected by the loop is the label of one of the required fields. -/
theorem collectMissing_subset (requiredFields : List (Str × Str)) (userData : Profile)
    (label : Str) (h : label ∈ collectMissing requiredFields userData) :
    label ∈ requiredFields.map Prod.snd := by
  rw [collectMissing_eq] at h
  obtain ⟨f, hf, rfl⟩ := List.mem_map.1 h
  exact List.mem_map.2 ⟨f, (List.mem_filter.1 hf).1, rfl⟩

/-- C22. For a student record whose `phoneNumber` is present (truthy): if it is not ten
decimal digits and "Phone Number" is not among the missing fields, the phone format label
is appended once, as the last element of `missingFields`; if it is ten decimal digits the
label is not in `missingFields`; and `missingFields` never holds both "Phone Number" and
the phone format label. -/
theorem phone_format_label (userData : Profile)
    (hphone : truthy (userData "phoneNumber".toList) = true) :
    (isTenDigits (userData "phoneNumber".toList) = false →
      "Phone Number".toList ∉ collectMissing studentRequiredFields userData →
      (checkProfileCompletion (some userData)).missingFields =
        collectMissing studentRequiredFields userData ++ [validPhoneLabel] ∧
      (checkProfileCompletion (some userData)).missingFields.count validPhoneLabel = 1) ∧
    (isTenDigits (userData "phoneNumber".toList) = true →
      validPhoneLabel ∉ (checkProfileCompletion (some userData)).missingFields) ∧
    ¬ ("Phone Number".toList ∈ (checkProfileCompletion (some userData)).missingFields ∧
       validPhoneLabel ∈ (checkProfileCompletion (some userData)).missingFields) := by
  have hnot : validPhoneLabel ∉ collectMissing studentRequiredFields userData := by
    intro h
    have := collectMissing_subset _ _ _ h
    revert this
    decide
  have hne : "Phone Number".toList ≠ validPhoneLabel := by decide
  have key : (checkProfileCompletion (some userData)).missingFields =
      if (truthy (userData "phoneNumber".toList) &&
          !isTenDigits (userData "phoneNumber".toList)) = true then
        if (!(collectMissing studentRequiredFields userData).contains
            "Phone Number".toList) = true then
          collectMissing studentRequiredFields userData ++ [validPhoneLabel]
        else collectMissing studentRequiredFields userData
      else collectMissing studentRequiredFields userData := rfl
  rw [key, hphone]
  generalize collectMissing studentRequiredFields userData = collected at hnot ⊢
  generalize isTenDigits (userData "phoneNumber".toList) = ten
  generalize "Phone Number".toList = phoneLabel at hne ⊢
  refine ⟨?_, ?_, ?_⟩
  · intro hten hpn
    subst hten
    simp [hpn, List.count_eq_zero_of_not_mem hnot]
  · intro hten
    subst hten
    simpa using hnot
  · rintro ⟨hpn, hlabel⟩
    cases ten
    · by_cases hin : phoneLabel ∈ collected
      · simp [hin] at hlabel
        exact hnot hlabel
      · simp [hin] at hpn
        exact hne hpn
    · simp at hlabel
      exact hnot hlabel

/-- C22 at concrete inputs: a complete record with a phone number of nine digits gets the
phone format label as its only missing field; with ten digits it gets none. -/
theorem phone_format_label_witness :
    (checkProfileCompletion (some profileShortPhone)).missingFields = [validPhoneLabel] ∧
    validPhoneLabel ∉ (checkProfileCompletion (some profileWithoutCgpaGithub)).missingFields :=
  ⟨by
    have h := (phone_format_label profileShortPhone (by decide)).1 (by decide) (by decide)
    rw [h.1]
    decide,
   (phone_format_label profileWithoutCgpaGithub (by decide)).2.1 (by decide)⟩

/-- C23. `generateProfileNotificationMessage` returns `null` exactly when `missingFields`
is empty. For a non-empty list, the role `faculty` gets the fixed message; the role
`student` (also the default) gets the base message followed by " Missing: ", the labels
joined by ", " and a full stop when there are at most 3 labels, and by " You have N fields
to complete." with N the number of labels when there are more. -/
theorem notification_message (missingFields : List Str) :
    (∀ userRole, generateProfileNotificationMessage missingFields userRole = none ↔
      missingFields = []) ∧
    (missingFields ≠ [] →
      generateProfileNotificationMessage missingFields (some "faculty".toList) =
        some "Your profile is incomplete. Please complete it.".toList) ∧
    (missingFields ≠ [] → missingFields.length ≤ 3 →
      ∀ userRole, userRole = none ∨ userRole = some "student".toList →
      generateProfileNotificationMessage missingFields userRole =
        some (baseMessage ++ " Missing: ".toList ++ joinLabels missingFields ++
          ".".toList)) ∧
    (3 < missingFields.length →
      ∀ userRole, userRole = none ∨ userRole = some "student".toList →
      generateProfileNotificationMessage missingFields userRole =
        some (baseMessage ++ " You have ".toList ++ (Nat.repr missingFields.length).toList ++
          " fields to complete.".toList)) ∧
    joinLabels ["CGPA".toList, "GitHub Profile Link".toList] =
      "CGPA, GitHub Profile Link".toList ∧
    generateProfileNotificationMessage
      ["A".toList, "B".toList, "C".toList, "D".toList] none =
      some (baseMessage ++ " You have 4 fields to complete.".toList) := by
  have hlen : missingFields.length = 0 ↔ missingFields = [] := List.length_eq_zero
  refine ⟨?_, ?_, ?_, ?_, by decide, by decide⟩
  · intro userRole
    by_cases h : missingFields = []
    · simp [generateProfileNotificationMessage, h]
    · simp only [generateProfileNotificationMessage, beq_iff_eq, hlen, h, if_false, iff_false]
      split_ifs <;> simp
  · intro h
    simp [generateProfileNotificationMessage, hlen, h, facultyMessage]
  · intro h h3 userRole hrole
    have hr : ¬ (userRole.getD "student".toList == "faculty".toList) = true := by
      rcases hrole with rfl | rfl <;> decide
    have h0 : ¬ (missingFields.length == 0) = true := by simpa [hlen] using h
    dsimp only [generateProfileNotificationMessage]
    rw [if_neg h0, if_neg hr, if_pos h3]
  · intro h3 userRole hrole
    have hr : ¬ (userRole.getD "student".toList == "faculty".toList) = true := by
      rcases hrole with rfl | rfl <;> decide
    have h0 : ¬ (missingFields.length == 0) = true := by
      intro h
      rw [beq_iff_eq] at h
      omega
    have h3' : ¬ missingFields.length ≤ 3 := Nat.not_le.2 h3
    dsimp only [generateProfileNotificationMessage]
    rw [if_neg h0, if_neg hr, if_neg h3']

/-- C24, the code at the failing input: in a faculty record that holds a value for each of
the 8 required fields, `experience` being the number 0, no field is missing in the words
of the specification; `checkFacultyProfileCompletion` returns
`missingFields = ["Years of Experience"]` and `isComplete = false`, where the claim expects
an empty list and `isComplete = true`. -/
theorem complete_faculty_record_reported_incomplete :
    facultyRequiredFields.map Prod.fst =
      [ "firstName".toList, "lastName".toList, "department".toList, "designation".toList,
        "specialization".toList, "experience".toList, "qualifications".toList,
        "contactEmail".toList ] ∧
    (∀ f ∈ facultyRequiredFields, missingPerSpec (facultyZeroExperience f.1) = false) ∧
    (checkFacultyProfileCompletion (some facultyZeroExperience)).missingFields =
      ["Years of Experience".toList] ∧
    (checkFacultyProfileCompletion (some facultyZeroExperience)).isComplete = false := by
  refine ⟨by decide, by decide, by with_unfolding_all decide, by with_unfolding_all decide⟩

/-! ## Interests and toggles of the list: the claims -/

/-- C25. `hasMatchingDomains` is true if and only if there are an interest of the student
and a domain of the internship such that, after lowercasing and trimming both, one contains
the other. It is false when the interest list or the domain list is empty. -/
theorem hasMatchingDomains_iff (st : HomeState) (internship : Internship) :
    (hasMatchingDomains st internship = true ↔
      ∃ domains, internship.domains = some domains ∧
        ∃ interest ∈ st.userInterests, ∃ domain ∈ domains,
          normalizeDomain interest <:+: normalizeDomain domain ∨
          normalizeDomain domain <:+: normalizeDomain interest) ∧
    (st.userInterests = [] → hasMatchingDomains st internship = false) ∧
    (internship.domains.getD [] = [] → hasMatchingDomains st internship = false) ∧
    hasMatchingDomains interestedState deadlineAtTen = true := by
  refine ⟨?_, ?_, ?_, by decide⟩
  · rcases hd : internship.domains with _ | domains
    · simp [hasMatchingDomains, hd]
    · by_cases hi : st.userInterests = []
      · simp [hasMatchingDomains, hd, hi]
      · by_cases hdo : domains = []
        · simp [hasMatchingDomains, hd, hdo]
        · simp [hasMatchingDomains, hd, hi, hdo, includes_iff]
  · intro hi
    rcases hd : internship.domains with _ | domains <;> simp [hasMatchingDomains, hd, hi]
  · intro hdo
    rcases hd : internship.domains with _ | domains
    · simp [hasMatchingDomains, hd]
    · have : domains = [] := by simpa [hd] using hdo
      simp [hasMatchingDomains, hd, this]

/-- C26. The interests of the student gate nothing: with everything else equal, the list
filter keeps the same internships and `canApply` has the same value for each internship,
whatever the interest list. -/
theorem interests_never_gate (now : Int) (st : HomeState) (interests : List (Option Str))
    (internships : List Internship) :
    filteredInternships now { st with userInterests := interests } internships =
      filteredInternships now st internships ∧
    (∀ internship, canApply { st with userInterests := interests } internship =
      canApply st internship) ∧
    (∀ internship, keepInternship now { st with userInterests := interests } internship =
      keepInternship now st internship) :=
  ⟨rfl, fun _ => rfl, fun _ => rfl⟩

/-- C30. The list filter is monotone in both toggles: with everything else fixed, the
result for `showAll` false is a sublist of the result for `showAll` true, and the result
for `showExpired` false is a sublist of the result for `showExpired` true. -/
theorem filter_monotone_in_toggles (now : Int) (st : HomeState)
    (internships : List Internship) :
    List.Sublist
      (filteredInternships now { st with showAllInternships := false } internships)
      (filteredInternships now { st with showAllInternships := true } internships) ∧
    List.Sublist
      (filteredInternships now { st with showExpiredInternships := false } internships)
      (filteredInternships now { st with showExpiredInternships := true } internships) := by
  constructor
  · apply List.monotone_filter_right
    intro i hi
    simp only [keepInternship] at hi ⊢
    revert hi
    cases st.appliedInternshipIds.contains i.id <;> cases st.showExpiredInternships <;>
      cases deadlinePassed now i <;> cases matchesSearch st.searchTerm i <;> simp
  · apply List.monotone_filter_right
    intro i hi
    simp only [keepInternship] at hi ⊢
    revert hi
    cases st.showAllInternships <;> cases st.appliedInternshipIds.contains i.id <;>
      cases deadlinePassed now i <;> cases matchesSearch st.searchTerm i <;> simp

/-! ## The copies of the department check: the claims -/

/-- The effect, once the `departments` list is found empty or absent and the student's
department is a key of the taxonomy. -/
theorem departmentMismatch_fallback_eq (internship : Internship) (userData : UserData)
    (userDepartment : Str) (departmentDomains : List Str)
    (hdept : userData.department = some userDepartment)
    (hlook : lookupDepartment userDepartment = some departmentDomains)
    (hdeps : hasDepartments internship = false) :
    departmentMismatch (some internship) (some userData) =
      if (internship.domains.getD []).length == 0 then some false
      else some (!(internship.domains.getD []).any
        (domainMatches userDepartment departmentDomains)) := by
  have hne : userDepartment.isEmpty = false := by
    rcases userDepartment with _ | ⟨c, cs⟩
    · have hnone : lookupDepartment [] = none := by decide
      rw [hnone] at hlook
      exact Option.noConfusion hlook
    · rfl
  simp only [departmentMismatch, hdept, hne, hdeps, hlook]
  rfl

/-- C27. In the compatibility effect, for an internship whose `departments` list is empty
or absent and a student whose department is in the taxonomy: without domains
`departmentMismatch` is false; otherwise it is true exactly when no domain of the
internship matches the student's department under the domain matcher. Without a profile,
or without a department in the profile, `departmentMismatch` is false. -/
theorem departmentMismatch_fallback (internship : Internship) :
    (∀ (userData : UserData) (userDepartment : Str),
      userData.department = some userDepartment →
      userDepartment ∈ taxonomyDepartments → hasDepartments internship = false →
      (internship.domains.getD [] = [] →
        departmentMismatch (some internship) (some userData) = some false) ∧
      (internship.domains.getD [] ≠ [] →
        ∃ b, departmentMismatch (some internship) (some userData) = some b ∧
          (b = true ↔ ∀ domain ∈ internship.domains.getD [],
            matchesDepartment domain userDepartment = some false))) ∧
    departmentMismatch (some internship) none = some false ∧
    (∀ userData : UserData, userData.department = none ∨ userData.department = some [] →
      departmentMismatch (some internship) (some userData) = some false) ∧
    departmentMismatch (some noDepartmentsInternship) (some civilStudent) = some false ∧
    departmentMismatch (some noDepartmentsInternship) (some csStudent) = some true := by
  refine ⟨?_, rfl, ?_, by decide, by decide⟩
  · intro userData userDepartment hdept htax hdeps
    have hsome := lookupDepartment_isSome userDepartment htax
    rcases hl : lookupDepartment userDepartment with _ | ds
    · simp [hl] at hsome
    · have heq := departmentMismatch_fallback_eq internship userData userDepartment ds hdept
        hl hdeps
      constructor
      · intro hnil
        rw [heq, hnil]
        rfl
      · intro hne
        have hlen : ¬ ((internship.domains.getD []).length == 0) = true := by
          simpa using hne
        rw [heq, if_neg hlen]
        refine ⟨_, rfl, ?_⟩
        simp only [matchesDepartment, hl, Option.map_some', Option.some.injEq,
          Bool.not_eq_true', List.any_eq_false]
        constructor
        · intro h domain hd
          simpa using h domain hd
        · intro h domain hd
          simpa using h domain hd
  · intro userData h
    rcases h with h | h <;> simp [departmentMismatch, h]

/-- C28. For an internship with a non-empty `departments` list or a non-empty `domains`
list and a student whose department is in the taxonomy, the department stage of the
recommendation filter keeps the internship if and only if the compatibility effect of the
detail view reports no mismatch. -/
theorem recommendation_agrees_with_detail (internship : Internship) (userData : UserData)
    (userDepartment : Str) (hdept : userData.department = some userDepartment)
    (htax : userDepartment ∈ taxonomyDepartments)
    (hsome : hasDepartments internship = true ∨ internship.domains.getD [] ≠ []) :
    (recommendationKeeps userDepartment internship = true ↔
      departmentMismatch (some internship) (some userData) = some false) ∧
    (∀ internships : List Internship,
      internship ∈ recommendedForDepartment (some userData) internships ↔
        internship ∈ internships ∧
          departmentMismatch (some internship) (some userData) = some false) := by
  have hlk := lookupDepartment_isSome userDepartment htax
  rcases hl : lookupDepartment userDepartment with _ | ds
  · simp [hl] at hlk
  have hne : userDepartment.isEmpty = false := by
    rcases userDepartment with _ | ⟨c, cs⟩
    · have hnone : lookupDepartment [] = none := by decide
      rw [hnone] at hl
      exact Option.noConfusion hl
    · rfl
  have key : recommendationKeeps userDepartment internship = true ↔
      departmentMismatch (some internship) (some userData) = some false := by
    by_cases hd : hasDepartments internship = true
    · simp [recommendationKeeps, departmentMismatch, hdept, hne, hd]
    · rw [Bool.not_eq_true] at hd
      have hdom : internship.domains.getD [] ≠ [] := by
        rcases hsome with h | h
        · rw [hd] at h
          exact Bool.noConfusion h
        · exact h
      have hlen : ¬ ((internship.domains.getD []).length == 0) = true := by
        simpa using hdom
      rw [departmentMismatch_fallback_eq internship userData userDepartment ds hdept hl hd,
        if_neg hlen]
      simp only [recommendationKeeps, hd, hl, Bool.false_eq_true, if_false, hlen]
      simp
  refine ⟨key, fun internships => ?_⟩
  simp only [recommendedForDepartment, hdept, hne, Bool.false_eq_true, if_false,
    List.mem_filter, key]

/-- C28 at concrete inputs: for the Computer Science student both copies reject the
internship without `departments` on structural engineering, and for the Civil Engineering
student both accept it. -/
theorem recommendation_agrees_with_detail_witness :
    recommendationKeeps "Civil Engineering".toList noDepartmentsInternship = true ∧
    departmentMismatch (some noDepartmentsInternship) (some civilStudent) = some false ∧
    recommendationKeeps "Computer Science".toList noDepartmentsInternship = false ∧
    departmentMismatch (some noDepartmentsInternship) (some csStudent) = some true := by
  have h := (recommendation_agrees_with_detail noDepartmentsInternship civilStudent
    "Civil Engineering".toList rfl (by decide) (Or.inr (by decide))).1
  have hk : recommendationKeeps "Civil Engineering".toList noDepartmentsInternship = true := by
    decide
  exact ⟨hk, h.1 hk, by decide, by decide⟩

/-- Membership after `targetDepts.add(dept)`. -/
theorem mem_setAdd (targetDepts : List Str) (dept x : Str) :
    x ∈ setAdd targetDepts dept ↔ x ∈ targetDepts ∨ x = dept := by
  unfold setAdd
  by_cases h : targetDepts.contains dept = true
  · rw [if_pos h]
    constructor
    · exact Or.inl
    · rintro (hx | hx)
      · exact hx
      · subst hx
        simpa using h
  · rw [if_neg h]
    simp

/-- The fuzzy test of the detection is containment in one direction or the other. -/
theorem displayHasMatch_iff (domainLower : Str) (domains : List Str) :
    displayHasMatch domainLower domains = true ↔
      ∃ e ∈ domains, includes (trim (toLowerCase e)) domainLower = true ∨
        includes domainLower (trim (toLowerCase e)) = true := by
  simp only [displayHasMatch, List.any_eq_true, Bool.or_eq_true, beq_iff_eq]
  constructor
  · rintro ⟨e, he, h⟩
    refine ⟨e, he, ?_⟩
    rcases h with (h | h) | h
    · rw [← h]
      exact Or.inl (includes_self _)
    · exact Or.inl h
    · exact Or.inr h
  · rintro ⟨e, he, h⟩
    refine ⟨e, he, ?_⟩
    rcases h with h | h
    · exact Or.inl (Or.inr h)
    · exact Or.inr h

/-- Membership after the loop over the rows of the taxonomy in the detection. -/
theorem mem_detect_rows (domainLower : Str) (rows : List (Str × List Str))
    (targetDepts : List Str) (x : Str) :
    x ∈ rows.foldl
        (fun targetDepts e =>
          if e.1 == artificialIntelligence then targetDepts
          else if displayHasMatch domainLower e.2 then setAdd targetDepts e.1
          else targetDepts)
        targetDepts ↔
      x ∈ targetDepts ∨ ∃ e ∈ rows, e.1 = x ∧ x ≠ artificialIntelligence ∧
        displayHasMatch domainLower e.2 = true := by
  induction rows generalizing targetDepts with
  | nil => simp
  | cons r rows ih =>
    rw [List.foldl_cons, ih]
    by_cases hai : r.1 = artificialIntelligence
    · have hb : (r.1 == artificialIntelligence) = true := by simpa using hai
      rw [if_pos hb]
      constructor
      · rintro (h | ⟨e, he, h⟩)
        · exact Or.inl h
        · exact Or.inr ⟨e, List.mem_cons_of_mem _ he, h⟩
      · rintro (h | ⟨e, he, h1, h2, h3⟩)
        · exact Or.inl h
        · rcases List.mem_cons.1 he with rfl | he
          · exact absurd (h1 ▸ hai) h2
          · exact Or.inr ⟨e, he, h1, h2, h3⟩
    · have hb : ¬ (r.1 == artificialIntelligence) = true := by simpa using hai
      rw [if_neg hb]
      by_cases hm : displayHasMatch domainLower r.2 = true
      · rw [if_pos hm, mem_setAdd]
        constructor
        · rintro ((h | h) | ⟨e, he, h⟩)
          · exact Or.inl h
          · exact Or.inr ⟨r, List.mem_cons_self _ _, h.symm, h ▸ hai, hm⟩
          · exact Or.inr ⟨e, List.mem_cons_of_mem _ he, h⟩
        · rintro (h | ⟨e, he, h1, h2, h3⟩)
          · exact Or.inl (Or.inl h)
          · rcases List.mem_cons.1 he with rfl | he
            · exact Or.inl (Or.inr h1.symm)
            · exact Or.inr ⟨e, he, h1, h2, h3⟩
      · rw [if_neg hm]
        constructor
        · rintro (h | ⟨e, he, h⟩)
          · exact Or.inl h
          · exact Or.inr ⟨e, List.mem_cons_of_mem _ he, h⟩
        · rintro (h | ⟨e, he, h1, h2, h3⟩)
          · exact Or.inl h
          · rcases List.mem_cons.1 he with rfl | he
            · exact absurd h3 hm
            · exact Or.inr ⟨e, he, h1, h2, h3⟩

/-- Membership after the detection step for one domain. -/
theorem mem_detectDomain (targetDepts : List Str) (domain x : Str) :
    x ∈ detectDomain targetDepts domain ↔ x ∈ targetDepts ∨ detects domain x := by
  by_cases ht : triggersAIRule (trim (toLowerCase domain)) = true
  · have hd : detectDomain targetDepts domain = setAdd targetDepts artificialIntelligence := by
      simp only [detectDomain]
      simp only [triggersAIRule, Bool.or_eq_true] at ht
      split_ifs <;> simp_all
    rw [hd, mem_setAdd]
    simp [detects, ht]
  · rw [Bool.not_eq_true] at ht
    have hd : detectDomain targetDepts domain =
        DEPARTMENT_DOMAINS.foldl
          (fun targetDepts e =>
            if e.1 == artificialIntelligence then targetDepts
            else if displayHasMatch (trim (toLowerCase domain)) e.2 then
              setAdd targetDepts e.1
            else targetDepts)
          targetDepts := by
      simp only [detectDomain]
      simp only [triggersAIRule, Bool.or_eq_false_iff] at ht
      split_ifs <;> simp_all
    rw [hd, mem_detect_rows]
    simp [detects, ht]

/-- The detection loop over domains none of which is `null` completes, and a department is
in its result exactly when it was there before or one of the domains adds it. -/
theorem detectDomains_spec (domains : List Str) (targetDepts : List Str) :
    ∃ shown, detectDomains targetDepts (domains.map some) = some shown ∧
      ∀ x, x ∈ shown ↔ x ∈ targetDepts ∨ ∃ domain ∈ domains, detects domain x := by
  induction domains generalizing targetDepts with
  | nil => exact ⟨targetDepts, rfl, fun x => by simp⟩
  | cons d domains ih =>
    obtain ⟨shown, hs, hmem⟩ := ih (detectDomain targetDepts d)
    refine ⟨shown, by simpa [detectDomains] using hs, fun x => ?_⟩
    rw [hmem, mem_detectDomain]
    simp only [List.mem_cons, exists_eq_or_imp]
    tauto

/-- Every row of the taxonomy is what the read of its key returns. -/
theorem lookupDepartment_of_row :
    ∀ e ∈ DEPARTMENT_DOMAINS, lookupDepartment e.1 = some e.2 := by decide

/-- No department of the taxonomy has the empty name. -/
theorem taxonomyDepartments_nonempty : ∀ d ∈ taxonomyDepartments, d.isEmpty = false := by
  decide

/-- C29 fails as stated: for the internship on "Reinforcement Learning", without
`departments`, the compatibility effect reports no mismatch for a student of Artificial
Intelligence, and the detail page displays no target department at all. -/
theorem compatible_department_not_displayed :
    reinforcementInternship.departments = none ∧
    artificialIntelligence ∈ taxonomyDepartments ∧
    departmentMismatch (some reinforcementInternship) (some aiStudent) = some false ∧
    targetDepartmentsDisplay reinforcementInternship = some (.departments []) := by
  decide

/-- C29, amended. For an internship without `departments` and with a non-empty list of
domain strings, the detail page displays a list of departments such that: every displayed
department is a taxonomy department for which the compatibility effect reports no
mismatch; every taxonomy department other than Artificial Intelligence for which the effect
reports no mismatch is displayed; and Artificial Intelligence is displayed exactly when one
of the domains triggers an AI-term rule. -/
theorem displayed_departments_are_compatible (internship : Internship) (domains : List Str)
    (hdeps : internship.departments.getD [] = [])
    (hdom : internship.domains = some (domains.map some)) (hne : domains ≠ []) :
    ∃ shown, targetDepartmentsDisplay internship = some (.departments shown) ∧
      (∀ d ∈ shown, d ∈ taxonomyDepartments ∧
        ∀ userData : UserData, userData.department = some d →
          departmentMismatch (some internship) (some userData) = some false) ∧
      (∀ d ∈ taxonomyDepartments, d ≠ artificialIntelligence →
        ∀ userData : UserData, userData.department = some d →
          departmentMismatch (some internship) (some userData) = some false → d ∈ shown) ∧
      (artificialIntelligence ∈ shown ↔
        ∃ domain ∈ domains, triggersAIRule (normalizeDomain (some domain)) = true) := by
  have hnodeps : hasDepartments internship = false := by
    rcases hd : internship.departments with _ | ds
    · simp [hasDepartments, hd]
    · have : ds = [] := by simpa [hd] using hdeps
      simp [hasDepartments, hd, this]
  have hlen : ¬ (((domains.map some).length == 0) = true) := by
    simpa using hne
  obtain ⟨shown, hshown, hmem⟩ := detectDomains_spec domains []
  have hdisplay : targetDepartmentsDisplay internship = some (.departments shown) := by
    have hpos : 0 < domains.length := List.length_pos.2 hne
    simp [targetDepartmentsDisplay, hdom, hdeps, hpos, hshown]
  -- the effect, for a department of the taxonomy
  have heffect : ∀ (d : Str) (ds : List Str) (userData : UserData),
      lookupDepartment d = some ds → userData.department = some d →
      departmentMismatch (some internship) (some userData) =
        some (!(domains.map some).any (domainMatches d ds)) := by
    intro d ds userData hl hd
    rw [departmentMismatch_fallback_eq internship userData d ds hd hl hnodeps, hdom]
    simp only [Option.getD_some]
    rw [if_neg hlen]
  -- on a domain without AI term, the two fuzzy tests agree
  have hfuzzy : ∀ (d : Str) (ds : List Str) (domain : Str),
      triggersAIRule (trim (toLowerCase domain)) = false →
      (domainMatches d ds (some domain) = true ↔
        displayHasMatch (trim (toLowerCase domain)) ds = true) := by
    intro d ds domain ht
    rw [domainMatches_of_no_trigger d ds (some domain) ht, displayHasMatch_iff]
    rfl
  refine ⟨shown, hdisplay, ?_, ?_, ?_⟩
  · intro d hd
    rcases (hmem d).1 hd with h | ⟨domain, hdomain, h⟩
    · exact absurd h (List.not_mem_nil d)
    · rcases h with ⟨ht, rfl⟩ | ⟨ht, e, he, he1, _, hmatch⟩
      · refine ⟨by decide, fun userData hu => ?_⟩
        have hsome := lookupDepartment_isSome artificialIntelligence (by decide)
        rcases hl : lookupDepartment artificialIntelligence with _ | ds
        · simp [hl] at hsome
        · have hrow := lookupDepartment_mem _ ds hl
          rw [heffect _ ds userData hl hu]
          have hm : domainMatches artificialIntelligence ds (some domain) = true := by
            rw [domainMatches_of_trigger artificialIntelligence ds (some domain) ht
              (taxonomy_entries_nonempty _ hrow)
              (fun hu => taxonomy_other_entries_no_trigger _ hrow hu)]
            simp
          have hany : (domains.map some).any (domainMatches artificialIntelligence ds) =
              true :=
            List.any_eq_true.2 ⟨some domain, List.mem_map.2 ⟨domain, hdomain, rfl⟩, hm⟩
          rw [hany]
          rfl
      · subst he1
        refine ⟨List.mem_map.2 ⟨e, he, rfl⟩, fun userData hu => ?_⟩
        have hl := lookupDepartment_of_row e he
        rw [heffect _ e.2 userData hl hu]
        have hm : domainMatches e.1 e.2 (some domain) = true :=
          (hfuzzy e.1 e.2 domain ht).2 hmatch
        have hany : (domains.map some).any (domainMatches e.1 e.2) = true :=
          List.any_eq_true.2 ⟨some domain, List.mem_map.2 ⟨domain, hdomain, rfl⟩, hm⟩
        rw [hany]
        rfl
  · intro d hd hnai userData hu hcompat
    have hsome := lookupDepartment_isSome d hd
    rcases hl : lookupDepartment d with _ | ds
    · simp [hl] at hsome
    · have hrow := lookupDepartment_mem _ ds hl
      rw [heffect _ ds userData hl hu] at hcompat
      have hany : (domains.map some).any (domainMatches d ds) = true := by
        simpa using hcompat
      obtain ⟨od, hod, hm⟩ := List.any_eq_true.1 hany
      obtain ⟨domain, hdomain, rfl⟩ := List.mem_map.1 hod
      refine (hmem d).2 (Or.inr ⟨domain, hdomain, ?_⟩)
      by_cases ht : triggersAIRule (trim (toLowerCase domain)) = true
      · rw [domainMatches_of_trigger d ds (some domain) ht
          (taxonomy_entries_nonempty _ hrow)
          (fun hu => taxonomy_other_entries_no_trigger _ hrow hu)] at hm
        simp [hnai] at hm
      · rw [Bool.not_eq_true] at ht
        exact Or.inr ⟨ht, (d, ds), hrow, rfl, hnai, (hfuzzy d ds domain ht).1 hm⟩
  · rw [hmem]
    constructor
    · rintro (h | ⟨domain, hdomain, h⟩)
      · exact absurd h (List.not_mem_nil _)
      · rcases h with ⟨ht, _⟩ | ⟨_, e, _, _, hne2, _⟩
        · exact ⟨domain, hdomain, ht⟩
        · exact absurd rfl hne2
    · rintro ⟨domain, hdomain, ht⟩
      exact Or.inr ⟨domain, hdomain, Or.inl ⟨ht, rfl⟩⟩

/-- C29, amended, at a concrete input: for the internship on structural engineering the
page displays Civil Engineering, for which the effect reports no mismatch. -/
theorem displayed_departments_are_compatible_witness :
    targetDepartmentsDisplay noDepartmentsInternship =
      some (.departments ["Civil Engineering".toList]) ∧
    departmentMismatch (some noDepartmentsInternship) (some civilStudent) = some false ∧
    ∃ shown, targetDepartmentsDisplay noDepartmentsInternship = some (.departments shown) ∧
      (∀ d ∈ shown, d ∈ taxonomyDepartments ∧
        ∀ userData : UserData, userData.department = some d →
          departmentMismatch (some noDepartmentsInternship) (some userData) = some false) ∧
      (∀ d ∈ taxonomyDepartments, d ≠ artificialIntelligence →
        ∀ userData : UserData, userData.department = some d →
          departmentMismatch (some noDepartmentsInternship) (some userData) = some false →
          d ∈ shown) ∧
      (artificialIntelligence ∈ shown ↔
        ∃ domain ∈ ["Structural Engineering".toList],
          triggersAIRule (normalizeDomain (some domain)) = true) :=
  ⟨by decide, by decide,
   displayed_departments_are_compatible noDepartmentsInternship
     ["Structural Engineering".toList] rfl rfl (by decide)⟩

end InternBooth
